import Mathlib

/-!
Verification of the Bl4ckChat protocol core (a web port of the BitChat mesh
protocol).  The development shallowly embeds the TypeScript sources:

* `BinaryProtocol.encode` / `BinaryProtocol.decode` — the outer wire envelope
  codec from src/src/App.tsx (class BinaryProtocol).
* `BitchatMessageCodec.toIOSBinaryPayload` / `fromIOSBinaryPayload` — the
  compact binary chat-message codec from src/src/models/BitchatMessage.ts.
* `WebBluetoothMeshService` — the dispatch / dedup / relay / fragment logic
  from the mesh-service source file (handleReceivedPacket, handleAnnounce,
  handleMessage, handleFragment, cleanupOldFragments, stopService, ...).

Byte arrays (Uint8Array) are modelled as `List Nat` whose elements are byte
values.  JavaScript Number bitwise operators work on 32-bit two's-complement
integers; they are modelled exactly by the js* helpers below.  BigInt
operators (used for the packet timestamp) are exact and are modelled by plain
`Nat` arithmetic / bitwise operators.
-/

set_option maxRecDepth 4000

/-- ECMAScript ToInt32 of an integer-valued Number: reduce mod 2^32 into
the signed range [-2^31, 2^31). -/
def toInt32 (x : Int) : Int := (x + 2 ^ 31) % 2 ^ 32 - 2 ^ 31

/-- JS `x << s` on Numbers: both operands pass through ToInt32, the shift
count is taken mod 32, and the result wraps to Int32. -/
def jsShl (x : Int) (s : Nat) : Int := toInt32 (toInt32 x * 2 ^ (s % 32))

/-- JS `x >> s` on Numbers (sign-propagating right shift): arithmetic shift
of the Int32 operand, i.e. floor division by 2^(s mod 32). -/
def jsShr (x : Int) (s : Nat) : Int := Int.fdiv (toInt32 x) (2 ^ (s % 32))

/-- ECMAScript ToUint32: the 32-bit two's-complement pattern of a Number,
as a nonnegative integer. -/
def toUint32 (x : Int) : Nat := (x % 2 ^ 32).toNat

/-- JS `x | y` on Numbers: bitwise or of the 32-bit patterns of the two
operands, read back as Int32. -/
def jsOr (x y : Int) : Int := toInt32 ((toUint32 x ||| toUint32 y : Nat) : Int)

/-- JS `x & y` on Numbers: bitwise and of the 32-bit patterns of the two
operands, read back as Int32. -/
def jsAnd (x y : Int) : Int := toInt32 ((toUint32 x &&& toUint32 y : Nat) : Int)

/-- JS `(x >> s) & 0xFF` on Numbers, as a byte value.  The mask guarantees
the result is in [0, 255], so it can be read back as a `Nat`. -/
def shrByte (x : Int) (s : Nat) : Nat := (jsAnd (jsShr x s) 255).toNat

/-- JS `x & 0xFF` on Numbers, as a byte value. -/
def andByte (x : Int) : Nat := (jsAnd x 255).toNat

/-- Reading `data[i]` from a Uint8Array at a Nat index; an out-of-range read
yields `undefined`, which the surrounding numeric coercions (ToInt32 in
`<<`/`|`/`&` expressions) turn into 0. -/
def jsGetD (data : List Nat) (i : Nat) : Nat := data.getD i 0

/-- ECMAScript TypedArray.prototype.slice(start, end): negative indices count
from the end, both indices are clamped to [0, length], and an empty slice is
returned when end ≤ start. -/
def jsSlice (data : List Nat) (s e : Int) : List Nat :=
  (data.take
    (if e < 0 then (max ((data.length : Int) + e) 0).toNat else min e.toNat data.length)).drop
    (if s < 0 then (max ((data.length : Int) + s) 0).toNat else min s.toNat data.length)

/-- Hex digits of one byte, as produced by `b.toString(16).padStart(2, '0')`. -/
def byteToHexChars (b : Nat) : List Char :=
  let ds := Nat.toDigits 16 b
  if ds.length < 2 then '0' :: ds else ds

/-- bytesToHex from src/src/App.tsx: hex-encode a byte array. -/
def bytesToHex (bs : List Nat) : String := ⟨(bs.map byteToHexChars).flatten⟩

/-- Value of one hex digit as accepted by `parseInt(_, 16)` (upper or lower
case); `none` when the character is not a hex digit. -/
def hexDigitVal (c : Char) : Option Nat :=
  if '0' ≤ c ∧ c ≤ '9' then some (c.toNat - '0'.toNat)
  else if 'a' ≤ c ∧ c ≤ 'f' then some (c.toNat - 'a'.toNat + 10)
  else if 'A' ≤ c ∧ c ≤ 'F' then some (c.toNat - 'A'.toNat + 10)
  else none

/-- `parseInt(two-character string, 16)` as used by hexToBytes: parseInt
consumes the longest valid prefix; a string with no leading hex digit gives
NaN, which the Uint8Array store turns into 0. -/
def parseHexPair (c1 c2 : Char) : Nat :=
  match hexDigitVal c1 with
  | none => 0
  | some a =>
    match hexDigitVal c2 with
    | none => a
    | some b => 16 * a + b

/-- hexToBytes from src/src/App.tsx: walk the string two characters at a
time.  (The source is only called with even-length hex strings; a trailing
odd character parses as a single digit.) -/
def hexToBytes : List Char → List Nat
  | c1 :: c2 :: rest => parseHexPair c1 c2 :: hexToBytes rest
  | [c] => [(hexDigitVal c).getD 0]
  | [] => []

/-- Wire packet model, mirroring `interface BitchatPacket` (src/src/App.tsx).
The timestamp is a BigInt in the source; every constructed packet carries a
nonnegative value, so it is modelled as `Nat`. -/
structure BitchatPacket where
  version : Nat
  type : Nat
  ttl : Nat
  timestamp : Nat
  senderID : List Nat
  recipientID : Option (List Nat) := none
  payload : List Nat
  signature : Option (List Nat) := none
deriving DecidableEq

namespace MessageType

def ANNOUNCE : Nat := 0x01
def LEAVE : Nat := 0x03
def MESSAGE : Nat := 0x04
def FRAGMENT_START : Nat := 0x05
def FRAGMENT_CONTINUE : Nat := 0x06
def FRAGMENT_END : Nat := 0x07
def CHANNEL_ANNOUNCE : Nat := 0x08
def DELIVERY_ACK : Nat := 0x0A
def READ_RECEIPT : Nat := 0x0C
def NOISE_HANDSHAKE_INIT : Nat := 0x10
def NOISE_HANDSHAKE_RESP : Nat := 0x11
def NOISE_ENCRYPTED : Nat := 0x12
def NOISE_IDENTITY_ANNOUNCE : Nat := 0x13

end MessageType

namespace SpecialRecipients

/-- SpecialRecipients.BROADCAST: eight 0xFF bytes. -/
def BROADCAST : List Nat := List.replicate 8 0xFF

end SpecialRecipients

namespace BinaryProtocol

/-- trimNullBytes: `indexOf(0)` followed by `slice(0, index)` keeps exactly
the prefix before the first zero byte (the whole array when there is none),
i.e. `takeWhile (· ≠ 0)`. -/
def trimNullBytes (data : List Nat) : List Nat := data.takeWhile (· ≠ 0)

/-- `new Uint8Array(n)` zero-filled, with `set(bs.slice(0, n))` copied into
the front. -/
def padTo (n : Nat) (bs : List Nat) : List Nat :=
  bs.take n ++ List.replicate (n - (bs.take n).length) 0

/-- compress: the source's compression hook unconditionally returns null. -/
def compress (_data : List Nat) : Option (List Nat) := none

/-- decompress: likewise unimplemented, unconditionally null. -/
def decompress (_data : List Nat) (_originalSize : Nat) : Option (List Nat) :=
  none

/-- isLikelyCompressed: `new Set(data).size / data.length > 0.7`.  The source
compares 64-bit floats; the value is immaterial because `compress` always
fails, so the exact rounding of the quotient is modelled with rationals
(0/0 = NaN in JS and 0 in ℚ, both failing the `> 0.7` test). -/
def isLikelyCompressed (data : List Nat) : Bool :=
  decide ((data.dedup.length : ℚ) / data.length > 0.7)

/-- shouldCompress: payloads beyond 100 bytes that do not look compressed. -/
def shouldCompress (data : List Nat) : Bool :=
  decide (data.length > 100) && !isLikelyCompressed data

/-- One byte of the packet timestamp: `Number((timestamp >> BigInt(i * 8)) &
BigInt(0xFF))`.  BigInt shifts are exact (no 32-bit truncation). -/
def tsByte (ts : Nat) (i : Nat) : Nat := (ts >>> (8 * i)) &&& 255

/-- BinaryProtocol.encode.  The eight timestamp pushes (loop i = 7..0) are
unrolled.  The final `new Uint8Array(data)` converts every accumulated
number with ToUint8 (reduction mod 256). -/
def encode (packet : BitchatPacket) : List Nat :=
  let comp := if shouldCompress packet.payload then compress packet.payload else none
  let payload := comp.getD packet.payload
  let isCompressed := comp.isSome
  let flags : Nat :=
    (if packet.recipientID.isSome then 1 else 0) |||
    (if packet.signature.isSome then 2 else 0) |||
    (if isCompressed then 4 else 0)
  let payloadDataSize : Nat := payload.length + (if isCompressed then 2 else 0)
  let bytes : List Nat :=
    (if packet.version = 0 then 1 else packet.version) ::
    packet.type ::
    packet.ttl ::
    tsByte packet.timestamp 7 ::
    tsByte packet.timestamp 6 ::
    tsByte packet.timestamp 5 ::
    tsByte packet.timestamp 4 ::
    tsByte packet.timestamp 3 ::
    tsByte packet.timestamp 2 ::
    tsByte packet.timestamp 1 ::
    tsByte packet.timestamp 0 ::
    flags ::
    shrByte (payloadDataSize : Int) 8 ::
    andByte (payloadDataSize : Int) ::
    (padTo 8 packet.senderID ++
     (match packet.recipientID with
      | some r => padTo 8 r
      | none => []) ++
     (if isCompressed then
        [shrByte (packet.payload.length : Int) 8, andByte (packet.payload.length : Int)]
      else []) ++
     payload ++
     (match packet.signature with
      | some s => padTo 64 s
      | none => []))
  bytes.map (· % 256)

/-- BinaryProtocol.decode.  Offsets are JS Numbers and may go negative in the
compressed corner case (payloadLength < 2), hence `Int`.  The eight BigInt
timestamp steps `(t << 8n) | byte` are unrolled (exact arithmetic). -/
def decode (data : List Nat) : Option BitchatPacket :=
  if data.length < 13 + 8 then none
  else
    let version := jsGetD data 0
    let type := jsGetD data 1
    let ttl := jsGetD data 2
    let t1 : Nat := 0 <<< 8 ||| jsGetD data 3
    let t2 : Nat := t1 <<< 8 ||| jsGetD data 4
    let t3 : Nat := t2 <<< 8 ||| jsGetD data 5
    let t4 : Nat := t3 <<< 8 ||| jsGetD data 6
    let t5 : Nat := t4 <<< 8 ||| jsGetD data 7
    let t6 : Nat := t5 <<< 8 ||| jsGetD data 8
    let t7 : Nat := t6 <<< 8 ||| jsGetD data 9
    let timestamp : Nat := t7 <<< 8 ||| jsGetD data 10
    let flags := jsGetD data 11
    let hasRecipient := flags &&& 1 ≠ 0
    let hasSignature := flags &&& 2 ≠ 0
    let isCompressed := flags &&& 4 ≠ 0
    let payloadLength : Int := jsOr (jsShl (jsGetD data 12) 8) (jsGetD data 13)
    let senderID := jsSlice data 14 22
    let recipientID := if hasRecipient then some (jsSlice data 22 30) else none
    let offset2 : Int := if hasRecipient then 30 else 22
    let originalPayloadSize : Int :=
      if isCompressed then
        jsOr (jsShl (jsGetD data offset2.toNat) 8) (jsGetD data (offset2.toNat + 1))
      else 0
    let actualPayloadLength : Int :=
      if isCompressed then payloadLength - 2 else payloadLength
    let offset3 : Int := if isCompressed then offset2 + 2 else offset2
    let payload0 := jsSlice data offset3 (offset3 + actualPayloadLength)
    let offset4 : Int := offset3 + actualPayloadLength
    let payload :=
      if isCompressed ∧ originalPayloadSize ≠ 0 then
        (decompress payload0 originalPayloadSize.toNat).getD payload0
      else payload0
    let signature := if hasSignature then some (jsSlice data offset4 (offset4 + 64)) else none
    some
      { version := version
        type := type
        ttl := ttl
        timestamp := timestamp
        senderID := trimNullBytes senderID
        recipientID := recipientID.map trimNullBytes
        payload := payload
        signature := signature }

end BinaryProtocol

/-! Arithmetic facts about the JS Number helpers, used to evaluate the
codecs on well-ranged inputs. -/

theorem toInt32_eq_self (x : Int) (h1 : -2 ^ 31 ≤ x) (h2 : x < 2 ^ 31) : toInt32 x = x := by
  unfold toInt32; omega

theorem toInt32_natCast (n : Nat) (h : n < 2 ^ 31) : toInt32 (n : Int) = (n : Int) :=
  toInt32_eq_self _ (by omega) (by exact_mod_cast h)

theorem nat_and_255 (n : Nat) : n &&& 255 = n % 256 := by
  have := Nat.and_pow_two_sub_one_eq_mod n 8
  norm_num at this
  exact this

theorem nat_shl8_lor (a b : Nat) (hb : b < 256) : a <<< 8 ||| b = a * 256 + b := by
  rw [Nat.shiftLeft_eq]
  have h := Nat.mul_add_lt_is_or (by omega : b < 2 ^ 8) a
  norm_num at h
  rw [Nat.mul_comm a 256, ← h, Nat.mul_comm 256 a]

theorem toUint32_natCast (n : Nat) (h : n < 2 ^ 32) : toUint32 (n : Int) = n := by
  unfold toUint32
  omega

theorem int_fdiv_natCast (m n : Nat) : Int.fdiv (m : Int) (n : Int) = ((m / n : Nat) : Int) := by
  cases m with
  | zero => rw [Nat.zero_div]; rfl
  | succ k => rfl

theorem jsAnd_255 (n : Nat) (h : n < 2 ^ 31) : jsAnd (n : Int) 255 = ((n % 256 : Nat) : Int) := by
  unfold jsAnd
  rw [toUint32_natCast n (by omega),
      show toUint32 255 = 255 from by unfold toUint32; omega,
      nat_and_255, toInt32_natCast _ (by omega)]

theorem andByte_eq (n : Nat) (h : n < 2 ^ 31) : andByte (n : Int) = n % 256 := by
  unfold andByte
  rw [jsAnd_255 n h]
  exact Int.toNat_natCast _

theorem jsShr8 (n : Nat) (h : n < 2 ^ 31) : jsShr (n : Int) 8 = ((n / 256 : Nat) : Int) := by
  unfold jsShr
  rw [toInt32_natCast n h, show ((2 : Int) ^ (8 % 32)) = ((256 : Nat) : Int) from rfl,
      int_fdiv_natCast]

theorem shrByte_eq (n : Nat) (h : n < 2 ^ 31) : shrByte (n : Int) 8 = n / 256 % 256 := by
  unfold shrByte
  rw [jsShr8 n h, jsAnd_255 _ (by omega), Int.toNat_natCast]

theorem jsShl8 (n : Nat) (h : n < 2 ^ 23) : jsShl (n : Int) 8 = ((n * 256 : Nat) : Int) := by
  unfold jsShl
  rw [toInt32_natCast n (by omega), show ((2 : Int) ^ (8 % 32)) = ((256 : Nat) : Int) from rfl]
  rw [show ((n : Int) * ((256 : Nat) : Int)) = ((n * 256 : Nat) : Int) by push_cast; ring]
  exact toInt32_natCast _ (by omega)

theorem jsOr_small (a b : Nat) (ha : a < 2 ^ 31) (hb : b < 2 ^ 31) :
    jsOr (a : Int) (b : Int) = ((a ||| b : Nat) : Int) := by
  unfold jsOr
  rw [toUint32_natCast a (by omega), toUint32_natCast b (by omega)]
  exact toInt32_natCast _ (Nat.or_lt_two_pow ha hb)

theorem twoByte_roundtrip (n : Nat) (h : n ≤ 65535) :
    jsOr (jsShl ((n / 256 % 256 : Nat) : Int) 8) ((n % 256 : Nat) : Int) = (n : Int) := by
  rw [jsShl8 _ (by omega), jsOr_small _ _ (by omega) (by omega)]
  have h2 := Nat.mul_add_lt_is_or (show n % 256 < 2 ^ 8 by omega) (n / 256 % 256)
  norm_num at h2
  rw [Nat.mul_comm, ← h2]
  have : 256 * (n / 256 % 256) + n % 256 = n := by omega
  rw [this]

theorem tsByte_lt (ts i : Nat) : BinaryProtocol.tsByte ts i < 256 := by
  unfold BinaryProtocol.tsByte
  have := nat_and_255 (ts >>> (8 * i))
  omega

theorem ts_roundtrip (ts : Nat) (h : ts < 2 ^ 64) :
    (((((((0 <<< 8 ||| BinaryProtocol.tsByte ts 7) <<< 8 ||| BinaryProtocol.tsByte ts 6) <<< 8 |||
      BinaryProtocol.tsByte ts 5) <<< 8 ||| BinaryProtocol.tsByte ts 4) <<< 8 |||
      BinaryProtocol.tsByte ts 3 : Nat) <<< 8 ||| BinaryProtocol.tsByte ts 2) <<< 8 |||
      BinaryProtocol.tsByte ts 1) <<< 8 ||| BinaryProtocol.tsByte ts 0 = ts := by
  have e : ∀ i, BinaryProtocol.tsByte ts i = ts / 2 ^ (8 * i) % 256 := by
    intro i
    unfold BinaryProtocol.tsByte
    rw [Nat.shiftRight_eq_div_pow, nat_and_255]
  rw [nat_shl8_lor _ _ (tsByte_lt ts 0), nat_shl8_lor _ _ (tsByte_lt ts 1),
    nat_shl8_lor _ _ (tsByte_lt ts 2), nat_shl8_lor _ _ (tsByte_lt ts 3),
    nat_shl8_lor _ _ (tsByte_lt ts 4), nat_shl8_lor _ _ (tsByte_lt ts 5),
    nat_shl8_lor _ _ (tsByte_lt ts 6), nat_shl8_lor _ _ (tsByte_lt ts 7)]
  simp only [e]
  norm_num
  omega

/-! List-level facts used to evaluate the codecs. -/

theorem mapMod_eq_self (l : List Nat) (h : ∀ b ∈ l, b < 256) : l.map (· % 256) = l := by
  induction l with
  | nil => rfl
  | cons a t ih =>
    simp only [List.map_cons, List.cons.injEq]
    constructor
    · exact Nat.mod_eq_of_lt (h a (by simp))
    · exact ih (fun b hb => h b (by simp [hb]))

theorem padTo_length (n : Nat) (bs : List Nat) : (BinaryProtocol.padTo n bs).length = n := by
  unfold BinaryProtocol.padTo
  simp only [List.length_append, List.length_replicate, List.length_take]
  omega

theorem padTo_eq_self (n : Nat) (bs : List Nat) (h : bs.length = n) :
    BinaryProtocol.padTo n bs = bs := by
  unfold BinaryProtocol.padTo
  rw [List.take_of_length_le (by omega)]
  simp [h]

theorem padTo_eq_append (n : Nat) (bs : List Nat) (h : bs.length ≤ n) :
    BinaryProtocol.padTo n bs = bs ++ List.replicate (n - bs.length) 0 := by
  unfold BinaryProtocol.padTo
  rw [List.take_of_length_le h]

theorem takeWhile_zeros (k : Nat) :
    (List.replicate k (0 : Nat)).takeWhile (· ≠ 0) = [] := by
  cases k with
  | zero => rfl
  | succ m => simp [List.replicate_succ, List.takeWhile_cons]

theorem takeWhile_length_eq {p : Nat → Bool} {l : List Nat}
    (h : (l.takeWhile p).length = l.length) : l.takeWhile p = l := by
  induction l with
  | nil => rfl
  | cons a t ih =>
    rw [List.takeWhile_cons] at h ⊢
    by_cases hp : p a = true
    · rw [if_pos hp] at h ⊢
      simp only [List.length_cons, Nat.succ.injEq] at h
      rw [ih h]
    · rw [if_neg hp] at h
      simp only [List.length_nil, List.length_cons] at h
      omega

theorem trim_append_zeros (bs : List Nat) (k : Nat) :
    BinaryProtocol.trimNullBytes (bs ++ List.replicate k 0) =
      BinaryProtocol.trimNullBytes bs := by
  unfold BinaryProtocol.trimNullBytes
  rw [List.takeWhile_append]
  split
  · rename_i h
    rw [takeWhile_length_eq h, takeWhile_zeros, List.append_nil]
  · rfl

theorem trim_padTo (n : Nat) (bs : List Nat) (h : bs.length ≤ n) :
    BinaryProtocol.trimNullBytes (BinaryProtocol.padTo n bs) =
      BinaryProtocol.trimNullBytes bs := by
  rw [padTo_eq_append n bs h, trim_append_zeros]

theorem trim_idem (bs : List Nat) :
    BinaryProtocol.trimNullBytes (BinaryProtocol.trimNullBytes bs) =
      BinaryProtocol.trimNullBytes bs := by
  unfold BinaryProtocol.trimNullBytes
  induction bs with
  | nil => rfl
  | cons a t ih =>
    rw [List.takeWhile_cons]
    split
    · rename_i hp
      rw [List.takeWhile_cons, if_pos hp, ih]
    · rfl

theorem take_min (l : List Nat) (k : Nat) : l.take (min k l.length) = l.take k := by
  rcases Nat.le_total k l.length with h | h
  · rw [Nat.min_eq_left h]
  · rw [Nat.min_eq_right h, List.take_of_length_le h, List.take_of_length_le (Nat.le_refl _)]

theorem drop_min (l : List Nat) (k : Nat) : l.drop (min k l.length) = l.drop k := by
  rcases Nat.le_total k l.length with h | h
  · rw [Nat.min_eq_left h]
  · rw [Nat.min_eq_right h, List.drop_of_length_le h, List.drop_of_length_le (Nat.le_refl _)]

theorem drop_min_outer (data : List Nat) (a b : Nat) :
    (data.take b).drop (min a data.length) = (data.take b).drop a := by
  rcases Nat.le_total a data.length with h | h
  · rw [Nat.min_eq_left h]
  · have hl : (data.take b).length ≤ data.length := by
      simp only [List.length_take]
      omega
    rw [Nat.min_eq_right h, List.drop_of_length_le hl,
        List.drop_of_length_le (le_trans hl h)]

theorem jsSliceN (data : List Nat) (a b : Nat) :
    jsSlice data (a : Int) (b : Int) = (data.take b).drop a := by
  unfold jsSlice
  rw [if_neg (by omega : ¬((a : Int) < 0)), if_neg (by omega : ¬((b : Int) < 0))]
  simp only [Int.toNat_natCast]
  rw [take_min, drop_min_outer]

theorem encode_eq (p : BitchatPacket) :
    BinaryProtocol.encode p =
      ((if p.version = 0 then 1 else p.version) :: p.type :: p.ttl ::
       BinaryProtocol.tsByte p.timestamp 7 :: BinaryProtocol.tsByte p.timestamp 6 ::
       BinaryProtocol.tsByte p.timestamp 5 :: BinaryProtocol.tsByte p.timestamp 4 ::
       BinaryProtocol.tsByte p.timestamp 3 :: BinaryProtocol.tsByte p.timestamp 2 ::
       BinaryProtocol.tsByte p.timestamp 1 :: BinaryProtocol.tsByte p.timestamp 0 ::
       ((if p.recipientID.isSome then 1 else 0) ||| (if p.signature.isSome then 2 else 0)) ::
       shrByte (p.payload.length : Int) 8 :: andByte (p.payload.length : Int) ::
       (BinaryProtocol.padTo 8 p.senderID ++
        (match p.recipientID with
         | some r => BinaryProtocol.padTo 8 r
         | none => []) ++
        p.payload ++
        (match p.signature with
         | some s => BinaryProtocol.padTo 64 s
         | none => []))).map (· % 256) := by
  unfold BinaryProtocol.encode
  cases hc : BinaryProtocol.shouldCompress p.payload <;>
    simp [BinaryProtocol.compress, hc]

theorem slice_drop (data : List Nat) (a b : Nat) :
    jsSlice data (a : Int) ((a : Int) + (b : Int)) = (data.drop a).take b := by
  have h1 : (a : Int) + (b : Int) = ((a + b : Nat) : Int) := by push_cast; ring
  rw [h1, jsSliceN, List.drop_take]
  congr 1
  omega

theorem drop_add_cons14 {α : Type} (x0 x1 x2 x3 x4 x5 x6 x7 x8 x9 x10 x11 x12 x13 : α)
    (tail : List α) (k : Nat) :
    (x0 :: x1 :: x2 :: x3 :: x4 :: x5 :: x6 :: x7 :: x8 :: x9 :: x10 :: x11 :: x12 :: x13 ::
      tail).drop (14 + k) = tail.drop k := by
  rw [← List.drop_drop]
  rfl

theorem decode_eval (hasR hasS : Bool) (e0 e1 e2 b7 b6 b5 b4 b3 b2 b1 b0 hi lo : Nat)
    (tail : List Nat) (hlen : 7 ≤ tail.length) (hhi : hi < 256) (hlo : lo < 256) :
    BinaryProtocol.decode (e0 :: e1 :: e2 :: b7 :: b6 :: b5 :: b4 :: b3 :: b2 :: b1 :: b0 ::
        ((if hasR then 1 else 0) ||| (if hasS then 2 else 0)) :: hi :: lo :: tail) =
      some { version := e0
             type := e1
             ttl := e2
             timestamp := (((((((0 <<< 8 ||| b7) <<< 8 ||| b6) <<< 8 ||| b5) <<< 8 ||| b4) <<< 8
               ||| b3) <<< 8 ||| b2) <<< 8 ||| b1) <<< 8 ||| b0
             senderID := BinaryProtocol.trimNullBytes (tail.take 8)
             recipientID :=
               if hasR then some (BinaryProtocol.trimNullBytes ((tail.drop 8).take 8)) else none
             payload := (tail.drop (if hasR then 16 else 8)).take (hi * 256 + lo)
             signature :=
               if hasS then
                 some ((tail.drop ((if hasR then 16 else 8) + (hi * 256 + lo))).take 64)
               else none } := by
  have hpl2 : jsOr (jsShl (hi : Int) 8) (lo : Int) = ((hi * 256 + lo : Nat) : Int) := by
    rw [jsShl8 _ (by omega), jsOr_small _ _ (by omega) (by omega)]
    have h2 := Nat.mul_add_lt_is_or (show lo < 2 ^ 8 by omega) hi
    norm_num at h2
    rw [Nat.mul_comm hi 256, ← h2, Nat.mul_comm 256 hi]
  cases hasR <;> cases hasS
  case false.false =>
    have hL : ¬((e0 :: e1 :: e2 :: b7 :: b6 :: b5 :: b4 :: b3 :: b2 :: b1 :: b0 :: ((if false then 1 else 0) ||| (if false then 2 else 0)) :: hi :: lo :: tail).length < 13 + 8) := by
      simp only [List.length_cons]
      omega
    rw [BinaryProtocol.decode.eq_def, if_neg hL]
    simp only [jsGetD,
      List.getD_cons_zero,
      List.getD_cons_succ,
      Bool.false_eq_true,
      if_false,
      if_true,
      Nat.zero_or,
      Nat.or_zero,
      ne_eq,
      eq_self_iff_true,
      not_true_eq_false,
      false_and,
      true_and,
      Option.map_none',
      hpl2,
      eq_false (show ¬(¬((0 : Nat) &&& 1 = 0)) by decide),
      eq_false (show ¬(¬((0 : Nat) &&& 2 = 0)) by decide),
      eq_false (show ¬(¬((0 : Nat) &&& 4 = 0)) by decide)]
    have hsl2 : jsSlice (e0 :: e1 :: e2 :: b7 :: b6 :: b5 :: b4 :: b3 :: b2 :: b1 :: b0 :: 0 :: hi :: lo :: tail) 14 22 = tail.take 8 := by
      rw [show (14 : Int) = ((14 : Nat) : Int) from rfl,
          show (22 : Int) = ((14 : Nat) : Int) + ((8 : Nat) : Int) by norm_num, slice_drop]
      rfl
    have hpay : jsSlice (e0 :: e1 :: e2 :: b7 :: b6 :: b5 :: b4 :: b3 :: b2 :: b1 :: b0 :: 0 :: hi :: lo :: tail) 22 (22 + ((hi * 256 + lo : Nat) : Int)) =
        (tail.drop 8).take (hi * 256 + lo) := by
      rw [show (22 : Int) = ((22 : Nat) : Int) from rfl, slice_drop]
      rfl
    rw [hsl2, hpay]
  case false.true =>
    have hL : ¬((e0 :: e1 :: e2 :: b7 :: b6 :: b5 :: b4 :: b3 :: b2 :: b1 :: b0 :: ((if false then 1 else 0) ||| (if true then 2 else 0)) :: hi :: lo :: tail).length < 13 + 8) := by
      simp only [List.length_cons]
      omega
    rw [BinaryProtocol.decode.eq_def, if_neg hL]
    simp only [jsGetD,
      List.getD_cons_zero,
      List.getD_cons_succ,
      Bool.false_eq_true,
      if_false,
      if_true,
      Nat.zero_or,
      Nat.or_zero,
      ne_eq,
      eq_self_iff_true,
      not_true_eq_false,
      false_and,
      true_and,
      Option.map_none',
      hpl2,
      eq_false (show ¬(¬((2 : Nat) &&& 1 = 0)) by decide),
      eq_true (show (¬((2 : Nat) &&& 2 = 0)) by decide),
      eq_false (show ¬(¬((2 : Nat) &&& 4 = 0)) by decide)]
    have hsl2 : jsSlice (e0 :: e1 :: e2 :: b7 :: b6 :: b5 :: b4 :: b3 :: b2 :: b1 :: b0 :: 2 :: hi :: lo :: tail) 14 22 = tail.take 8 := by
      rw [show (14 : Int) = ((14 : Nat) : Int) from rfl,
          show (22 : Int) = ((14 : Nat) : Int) + ((8 : Nat) : Int) by norm_num, slice_drop]
      rfl
    have hpay : jsSlice (e0 :: e1 :: e2 :: b7 :: b6 :: b5 :: b4 :: b3 :: b2 :: b1 :: b0 :: 2 :: hi :: lo :: tail) 22 (22 + ((hi * 256 + lo : Nat) : Int)) =
        (tail.drop 8).take (hi * 256 + lo) := by
      rw [show (22 : Int) = ((22 : Nat) : Int) from rfl, slice_drop]
      rfl
    have hsig : jsSlice (e0 :: e1 :: e2 :: b7 :: b6 :: b5 :: b4 :: b3 :: b2 :: b1 :: b0 :: 2 :: hi :: lo :: tail) (22 + ((hi * 256 + lo : Nat) : Int))
        (22 + ((hi * 256 + lo : Nat) : Int) + 64) =
        (tail.drop (8 + (hi * 256 + lo))).take 64 := by
      have hc : (22 : Int) + ((hi * 256 + lo : Nat) : Int) =
          (((22 + (hi * 256 + lo)) : Nat) : Int) := by
        push_cast
        ring
      rw [hc, show (64 : Int) = ((64 : Nat) : Int) from rfl, slice_drop,
          show 22 + (hi * 256 + lo) = 14 + (8 + (hi * 256 + lo)) by omega,
          drop_add_cons14]
    rw [hsl2, hpay, hsig]
  case true.false =>
    have hL : ¬((e0 :: e1 :: e2 :: b7 :: b6 :: b5 :: b4 :: b3 :: b2 :: b1 :: b0 :: ((if true then 1 else 0) ||| (if false then 2 else 0)) :: hi :: lo :: tail).length < 13 + 8) := by
      simp only [List.length_cons]
      omega
    rw [BinaryProtocol.decode.eq_def, if_neg hL]
    simp only [jsGetD,
      List.getD_cons_zero,
      List.getD_cons_succ,
      Bool.false_eq_true,
      if_false,
      if_true,
      Nat.zero_or,
      Nat.or_zero,
      ne_eq,
      eq_self_iff_true,
      not_true_eq_false,
      false_and,
      true_and,
      Option.map_none',
      hpl2,
      eq_true (show (¬((1 : Nat) &&& 1 = 0)) by decide),
      eq_false (show ¬(¬((1 : Nat) &&& 2 = 0)) by decide),
      eq_false (show ¬(¬((1 : Nat) &&& 4 = 0)) by decide)]
    have hsl2 : jsSlice (e0 :: e1 :: e2 :: b7 :: b6 :: b5 :: b4 :: b3 :: b2 :: b1 :: b0 :: 1 :: hi :: lo :: tail) 14 22 = tail.take 8 := by
      rw [show (14 : Int) = ((14 : Nat) : Int) from rfl,
          show (22 : Int) = ((14 : Nat) : Int) + ((8 : Nat) : Int) by norm_num, slice_drop]
      rfl
    have hrec2 : jsSlice (e0 :: e1 :: e2 :: b7 :: b6 :: b5 :: b4 :: b3 :: b2 :: b1 :: b0 :: 1 :: hi :: lo :: tail) 22 30 = (tail.drop 8).take 8 := by
      rw [show (22 : Int) = ((22 : Nat) : Int) from rfl,
          show (30 : Int) = ((22 : Nat) : Int) + ((8 : Nat) : Int) by norm_num, slice_drop]
      rfl
    have hpay : jsSlice (e0 :: e1 :: e2 :: b7 :: b6 :: b5 :: b4 :: b3 :: b2 :: b1 :: b0 :: 1 :: hi :: lo :: tail) 30 (30 + ((hi * 256 + lo : Nat) : Int)) =
        (tail.drop 16).take (hi * 256 + lo) := by
      rw [show (30 : Int) = ((30 : Nat) : Int) from rfl, slice_drop]
      rfl
    rw [hsl2, hrec2, hpay]
    simp only [Option.map_some']
  case true.true =>
    have hL : ¬((e0 :: e1 :: e2 :: b7 :: b6 :: b5 :: b4 :: b3 :: b2 :: b1 :: b0 :: ((if true then 1 else 0) ||| (if true then 2 else 0)) :: hi :: lo :: tail).length < 13 + 8) := by
      simp only [List.length_cons]
      omega
    rw [BinaryProtocol.decode.eq_def, if_neg hL]
    simp only [jsGetD,
      List.getD_cons_zero,
      List.getD_cons_succ,
      Bool.false_eq_true,
      if_false,
      if_true,
      Nat.zero_or,
      Nat.or_zero,
      ne_eq,
      eq_self_iff_true,
      not_true_eq_false,
      false_and,
      true_and,
      Option.map_none',
      hpl2,
      show ((1 : Nat) ||| 2) = 3 from rfl,
      eq_true (show (¬((3 : Nat) &&& 1 = 0)) by decide),
      eq_true (show (¬((3 : Nat) &&& 2 = 0)) by decide),
      eq_false (show ¬(¬((3 : Nat) &&& 4 = 0)) by decide)]
    have hsl2 : jsSlice (e0 :: e1 :: e2 :: b7 :: b6 :: b5 :: b4 :: b3 :: b2 :: b1 :: b0 :: 3 :: hi :: lo :: tail) 14 22 = tail.take 8 := by
      rw [show (14 : Int) = ((14 : Nat) : Int) from rfl,
          show (22 : Int) = ((14 : Nat) : Int) + ((8 : Nat) : Int) by norm_num, slice_drop]
      rfl
    have hrec2 : jsSlice (e0 :: e1 :: e2 :: b7 :: b6 :: b5 :: b4 :: b3 :: b2 :: b1 :: b0 :: 3 :: hi :: lo :: tail) 22 30 = (tail.drop 8).take 8 := by
      rw [show (22 : Int) = ((22 : Nat) : Int) from rfl,
          show (30 : Int) = ((22 : Nat) : Int) + ((8 : Nat) : Int) by norm_num, slice_drop]
      rfl
    have hpay : jsSlice (e0 :: e1 :: e2 :: b7 :: b6 :: b5 :: b4 :: b3 :: b2 :: b1 :: b0 :: 3 :: hi :: lo :: tail) 30 (30 + ((hi * 256 + lo : Nat) : Int)) =
        (tail.drop 16).take (hi * 256 + lo) := by
      rw [show (30 : Int) = ((30 : Nat) : Int) from rfl, slice_drop]
      rfl
    have hsig : jsSlice (e0 :: e1 :: e2 :: b7 :: b6 :: b5 :: b4 :: b3 :: b2 :: b1 :: b0 :: 3 :: hi :: lo :: tail) (30 + ((hi * 256 + lo : Nat) : Int))
        (30 + ((hi * 256 + lo : Nat) : Int) + 64) =
        (tail.drop (16 + (hi * 256 + lo))).take 64 := by
      have hc : (30 : Int) + ((hi * 256 + lo : Nat) : Int) =
          (((30 + (hi * 256 + lo)) : Nat) : Int) := by
        push_cast
        ring
      rw [hc, show (64 : Int) = ((64 : Nat) : Int) from rfl, slice_drop,
          show 30 + (hi * 256 + lo) = 14 + (16 + (hi * 256 + lo)) by omega,
          drop_add_cons14]
    rw [hsl2, hrec2, hpay, hsig]
    simp only [Option.map_some']

theorem take_append_exact {α : Type} (l₁ l₂ : List α) (n : Nat) (h : l₁.length = n) :
    (l₁ ++ l₂).take n = l₁ := by
  subst h
  exact List.take_left _ _

theorem drop_append_exact {α : Type} (l₁ l₂ : List α) (n : Nat) (h : l₁.length = n) :
    (l₁ ++ l₂).drop n = l₂ := by
  subst h
  exact List.drop_left _ _

theorem drop_append_plus {α : Type} (l₁ l₂ : List α) (n k : Nat) (h : n = l₁.length + k) :
    (l₁ ++ l₂).drop n = l₂.drop k := by
  subst h
  exact List.drop_append k

/-- Bytes of a zero-padded copy of a byte array stay below 256. -/
theorem padTo_bound (n : Nat) (bs : List Nat) (h : ∀ b ∈ bs, b < 256) :
    ∀ b ∈ BinaryProtocol.padTo n bs, b < 256 := by
  intro b hb
  unfold BinaryProtocol.padTo at hb
  rcases List.mem_append.mp hb with h2 | h2
  · exact h b (List.mem_of_mem_take h2)
  · rw [List.eq_of_mem_replicate h2]
    omega

/-- Well-ranged packets: the conditions under which every field survives the
wire format unchanged (up to the documented zero-trimming of the IDs). -/
def ValidPacket (p : BitchatPacket) : Prop :=
  0 < p.version ∧ p.version < 256 ∧ p.type < 256 ∧ p.ttl < 256 ∧ p.timestamp < 2 ^ 64 ∧
  p.senderID.length ≤ 8 ∧ (∀ b ∈ p.senderID, b < 256) ∧
  (match p.recipientID with
   | some r => r.length ≤ 8 ∧ ∀ b ∈ r, b < 256
   | none => True) ∧
  p.payload.length ≤ 65535 ∧ (∀ b ∈ p.payload, b < 256) ∧
  (match p.signature with
   | some s => s.length = 64 ∧ ∀ b ∈ s, b < 256
   | none => True)

/-- C1: for every valid packet, PacketCodec decode inverts encode modulo the
zero-trimming of the sender and recipient IDs, and the trimming is
idempotent. -/
theorem c1_packet_roundtrip (p : BitchatPacket) (h : ValidPacket p) :
    BinaryProtocol.decode (BinaryProtocol.encode p) =
      some { p with senderID := BinaryProtocol.trimNullBytes p.senderID,
                    recipientID := p.recipientID.map BinaryProtocol.trimNullBytes } ∧
    (∀ bs : List Nat, BinaryProtocol.trimNullBytes (BinaryProtocol.trimNullBytes bs) =
      BinaryProtocol.trimNullBytes bs) := by
  obtain ⟨hv0, hv, ht, httl, hts, hsl, hsb, hrecv, hplen, hpb, hsigv⟩ := h
  refine ⟨?_, trim_idem⟩
  have hps : p.payload.length < 2 ^ 31 := by omega
  have hhi2 : shrByte (p.payload.length : Int) 8 = p.payload.length / 256 % 256 :=
    shrByte_eq _ hps
  have hlo2 : andByte (p.payload.length : Int) = p.payload.length % 256 :=
    andByte_eq _ hps
  have hcnt : p.payload.length / 256 % 256 * 256 + p.payload.length % 256 =
      p.payload.length := by omega
  rcases hR : p.recipientID with _ | r <;> rcases hS : p.signature with _ | sg
  · rw [encode_eq p, hR, hS]
    rw [(show Option.isSome (none : Option (List Nat)) = false from rfl)]
    rw [hhi2, hlo2]
    rw [mapMod_eq_self]
    case h =>
      intro b hb
      simp only [List.append_nil, List.nil_append, List.mem_cons, List.mem_append,
        or_assoc] at hb
      rcases hb with h2 | h2 | h2 | h2 | h2 | h2 | h2 | h2 | h2 | h2 | h2 | h2 | h2 | h2 | h2 | h2
      · rw [h2]
        split <;> omega
      · omega
      · omega
      · rw [h2]
        exact tsByte_lt _ _
      · rw [h2]
        exact tsByte_lt _ _
      · rw [h2]
        exact tsByte_lt _ _
      · rw [h2]
        exact tsByte_lt _ _
      · rw [h2]
        exact tsByte_lt _ _
      · rw [h2]
        exact tsByte_lt _ _
      · rw [h2]
        exact tsByte_lt _ _
      · rw [h2]
        exact tsByte_lt _ _
      · rw [h2]
        decide
      · omega
      · omega
      · exact padTo_bound 8 _ hsb b h2
      · exact hpb b h2
    rw [decode_eval]
    case hlen =>
      simp only [List.append_nil, List.nil_append, List.length_append, padTo_length]
      omega
    case hhi => omega
    case hlo => omega
    simp only [List.append_nil, List.nil_append, List.append_assoc,
      Option.map_none', Option.map_some', Bool.false_eq_true, if_false, if_true,
      eq_self_iff_true]
    rw [if_neg (show ¬(p.version = 0) by omega), ts_roundtrip _ hts, hcnt]
    rw [show ((BinaryProtocol.padTo 8 p.senderID ++ p.payload).take 8) = BinaryProtocol.padTo 8 p.senderID from take_append_exact _ _ 8 (padTo_length _ _)]
    rw [show ((BinaryProtocol.padTo 8 p.senderID ++ p.payload).drop 8) = p.payload from drop_append_exact _ _ 8 (padTo_length _ _)]
    rw [List.take_of_length_le (Nat.le_refl p.payload.length)]
    rw [trim_padTo 8 p.senderID hsl]
  · have hsv : sg.length = 64 ∧ ∀ b ∈ sg, b < 256 := by
      rw [hS] at hsigv
      exact hsigv
    rw [encode_eq p, hR, hS]
    rw [(show Option.isSome (none : Option (List Nat)) = false from rfl), (show Option.isSome (some sg : Option (List Nat)) = true from rfl)]
    rw [hhi2, hlo2]
    rw [mapMod_eq_self]
    case h =>
      intro b hb
      simp only [List.append_nil, List.nil_append, List.mem_cons, List.mem_append,
        or_assoc] at hb
      rcases hb with h2 | h2 | h2 | h2 | h2 | h2 | h2 | h2 | h2 | h2 | h2 | h2 | h2 | h2 | h2 | h2 | h2
      · rw [h2]
        split <;> omega
      · omega
      · omega
      · rw [h2]
        exact tsByte_lt _ _
      · rw [h2]
        exact tsByte_lt _ _
      · rw [h2]
        exact tsByte_lt _ _
      · rw [h2]
        exact tsByte_lt _ _
      · rw [h2]
        exact tsByte_lt _ _
      · rw [h2]
        exact tsByte_lt _ _
      · rw [h2]
        exact tsByte_lt _ _
      · rw [h2]
        exact tsByte_lt _ _
      · rw [h2]
        decide
      · omega
      · omega
      · exact padTo_bound 8 _ hsb b h2
      · exact hpb b h2
      · exact padTo_bound 64 _ hsv.2 b h2
    rw [decode_eval]
    case hlen =>
      simp only [List.append_nil, List.nil_append, List.length_append, padTo_length]
      omega
    case hhi => omega
    case hlo => omega
    simp only [List.append_nil, List.nil_append, List.append_assoc,
      Option.map_none', Option.map_some', Bool.false_eq_true, if_false, if_true,
      eq_self_iff_true]
    rw [if_neg (show ¬(p.version = 0) by omega), ts_roundtrip _ hts, hcnt]
    rw [show ((BinaryProtocol.padTo 8 p.senderID ++ (p.payload ++ BinaryProtocol.padTo 64 sg)).take 8) = BinaryProtocol.padTo 8 p.senderID from take_append_exact _ _ 8 (padTo_length _ _)]
    rw [show ((BinaryProtocol.padTo 8 p.senderID ++ (p.payload ++ BinaryProtocol.padTo 64 sg)).drop 8) = p.payload ++ BinaryProtocol.padTo 64 sg from drop_append_exact _ _ 8 (padTo_length _ _)]
    rw [show ((BinaryProtocol.padTo 8 p.senderID ++ (p.payload ++ BinaryProtocol.padTo 64 sg)).drop (8 + p.payload.length)) = BinaryProtocol.padTo 64 sg from by
      rw [drop_append_plus _ _ _ p.payload.length (by rw [padTo_length] <;> omega),
          drop_append_exact _ _ _ rfl]]
    rw [take_append_exact p.payload _ p.payload.length rfl]
    rw [List.take_of_length_le (le_of_eq (padTo_length 64 sg))]
    rw [trim_padTo 8 p.senderID hsl, padTo_eq_self 64 sg hsv.1]
  · have hrv : r.length ≤ 8 ∧ ∀ b ∈ r, b < 256 := by
      rw [hR] at hrecv
      exact hrecv
    rw [encode_eq p, hR, hS]
    rw [(show Option.isSome (some r : Option (List Nat)) = true from rfl), (show Option.isSome (none : Option (List Nat)) = false from rfl)]
    rw [hhi2, hlo2]
    rw [mapMod_eq_self]
    case h =>
      intro b hb
      simp only [List.append_nil, List.nil_append, List.mem_cons, List.mem_append,
        or_assoc] at hb
      rcases hb with h2 | h2 | h2 | h2 | h2 | h2 | h2 | h2 | h2 | h2 | h2 | h2 | h2 | h2 | h2 | h2 | h2
      · rw [h2]
        split <;> omega
      · omega
      · omega
      · rw [h2]
        exact tsByte_lt _ _
      · rw [h2]
        exact tsByte_lt _ _
      · rw [h2]
        exact tsByte_lt _ _
      · rw [h2]
        exact tsByte_lt _ _
      · rw [h2]
        exact tsByte_lt _ _
      · rw [h2]
        exact tsByte_lt _ _
      · rw [h2]
        exact tsByte_lt _ _
      · rw [h2]
        exact tsByte_lt _ _
      · rw [h2]
        decide
      · omega
      · omega
      · exact padTo_bound 8 _ hsb b h2
      · exact padTo_bound 8 _ hrv.2 b h2
      · exact hpb b h2
    rw [decode_eval]
    case hlen =>
      simp only [List.append_nil, List.nil_append, List.length_append, padTo_length]
      omega
    case hhi => omega
    case hlo => omega
    simp only [List.append_nil, List.nil_append, List.append_assoc,
      Option.map_none', Option.map_some', Bool.false_eq_true, if_false, if_true,
      eq_self_iff_true]
    rw [if_neg (show ¬(p.version = 0) by omega), ts_roundtrip _ hts, hcnt]
    rw [show ((BinaryProtocol.padTo 8 p.senderID ++ (BinaryProtocol.padTo 8 r ++ p.payload)).take 8) = BinaryProtocol.padTo 8 p.senderID from take_append_exact _ _ 8 (padTo_length _ _)]
    rw [show ((BinaryProtocol.padTo 8 p.senderID ++ (BinaryProtocol.padTo 8 r ++ p.payload)).drop 8) = BinaryProtocol.padTo 8 r ++ p.payload from drop_append_exact _ _ 8 (padTo_length _ _)]
    rw [show ((BinaryProtocol.padTo 8 r ++ p.payload).take 8) = BinaryProtocol.padTo 8 r from take_append_exact _ _ 8 (padTo_length _ _)]
    rw [show ((BinaryProtocol.padTo 8 p.senderID ++ (BinaryProtocol.padTo 8 r ++ p.payload)).drop 16) = p.payload from by
      rw [drop_append_plus _ _ 16 8 (by rw [padTo_length] <;> omega),
          drop_append_exact _ _ 8 (padTo_length _ _)]]
    rw [List.take_of_length_le (Nat.le_refl p.payload.length)]
    rw [trim_padTo 8 p.senderID hsl, trim_padTo 8 r hrv.1]
  · have hrv : r.length ≤ 8 ∧ ∀ b ∈ r, b < 256 := by
      rw [hR] at hrecv
      exact hrecv
    have hsv : sg.length = 64 ∧ ∀ b ∈ sg, b < 256 := by
      rw [hS] at hsigv
      exact hsigv
    rw [encode_eq p, hR, hS]
    rw [(show Option.isSome (some r : Option (List Nat)) = true from rfl),
        (show Option.isSome (some sg : Option (List Nat)) = true from rfl)]
    rw [hhi2, hlo2]
    rw [mapMod_eq_self]
    case h =>
      intro b hb
      simp only [List.append_nil, List.nil_append, List.mem_cons, List.mem_append,
        or_assoc] at hb
      rcases hb with h2 | h2 | h2 | h2 | h2 | h2 | h2 | h2 | h2 | h2 | h2 | h2 | h2 | h2 | h2 | h2 | h2 | h2
      · rw [h2]
        split <;> omega
      · omega
      · omega
      · rw [h2]
        exact tsByte_lt _ _
      · rw [h2]
        exact tsByte_lt _ _
      · rw [h2]
        exact tsByte_lt _ _
      · rw [h2]
        exact tsByte_lt _ _
      · rw [h2]
        exact tsByte_lt _ _
      · rw [h2]
        exact tsByte_lt _ _
      · rw [h2]
        exact tsByte_lt _ _
      · rw [h2]
        exact tsByte_lt _ _
      · rw [h2]
        decide
      · omega
      · omega
      · exact padTo_bound 8 _ hsb b h2
      · exact padTo_bound 8 _ hrv.2 b h2
      · exact hpb b h2
      · exact padTo_bound 64 _ hsv.2 b h2
    rw [decode_eval]
    case hlen =>
      simp only [List.append_nil, List.nil_append, List.length_append, padTo_length]
      omega
    case hhi => omega
    case hlo => omega
    simp only [List.append_nil, List.nil_append, List.append_assoc,
      Option.map_none', Option.map_some', Bool.false_eq_true, if_false, if_true,
      eq_self_iff_true]
    rw [if_neg (show ¬(p.version = 0) by omega), ts_roundtrip _ hts, hcnt]
    rw [show ((BinaryProtocol.padTo 8 p.senderID ++ (BinaryProtocol.padTo 8 r ++ (p.payload ++ BinaryProtocol.padTo 64 sg))).take 8) = BinaryProtocol.padTo 8 p.senderID from take_append_exact _ _ 8 (padTo_length _ _)]
    rw [show ((BinaryProtocol.padTo 8 p.senderID ++ (BinaryProtocol.padTo 8 r ++ (p.payload ++ BinaryProtocol.padTo 64 sg))).drop 8) = BinaryProtocol.padTo 8 r ++ (p.payload ++ BinaryProtocol.padTo 64 sg) from drop_append_exact _ _ 8 (padTo_length _ _)]
    rw [show ((BinaryProtocol.padTo 8 r ++ (p.payload ++ BinaryProtocol.padTo 64 sg)).take 8) = BinaryProtocol.padTo 8 r from take_append_exact _ _ 8 (padTo_length _ _)]
    rw [show ((BinaryProtocol.padTo 8 p.senderID ++ (BinaryProtocol.padTo 8 r ++ (p.payload ++ BinaryProtocol.padTo 64 sg))).drop 16) = p.payload ++ BinaryProtocol.padTo 64 sg from by
      rw [drop_append_plus _ _ 16 8 (by rw [padTo_length] <;> omega),
          drop_append_exact _ _ 8 (padTo_length _ _)]]
    rw [show ((BinaryProtocol.padTo 8 p.senderID ++ (BinaryProtocol.padTo 8 r ++ (p.payload ++ BinaryProtocol.padTo 64 sg))).drop (16 + p.payload.length)) = BinaryProtocol.padTo 64 sg from by
      rw [drop_append_plus _ _ _ (8 + p.payload.length) (by rw [padTo_length] <;> omega),
          drop_append_plus _ _ _ p.payload.length (by rw [padTo_length] <;> omega),
          drop_append_exact _ _ _ rfl]]
    rw [take_append_exact p.payload _ p.payload.length rfl]
    rw [List.take_of_length_le (le_of_eq (padTo_length 64 sg))]
    rw [trim_padTo 8 p.senderID hsl, trim_padTo 8 r hrv.1, padTo_eq_self 64 sg hsv.1]

/-- Concrete packet exercising every optional field for the C1 witness. -/
def c1TestPacket : BitchatPacket :=
  { version := 1
    type := 4
    ttl := 7
    timestamp := 1234567890123
    senderID := [0xAB, 0xCD, 0x01]
    recipientID := some (List.replicate 8 0xFF)
    payload := [10, 20, 30]
    signature := some (List.replicate 64 7) }

/-- Witness for C1 at a concrete packet. -/
theorem c1_packet_roundtrip_witness :
    ValidPacket c1TestPacket ∧
    (BinaryProtocol.decode (BinaryProtocol.encode c1TestPacket) =
      some { c1TestPacket with
              senderID := BinaryProtocol.trimNullBytes c1TestPacket.senderID,
              recipientID := c1TestPacket.recipientID.map BinaryProtocol.trimNullBytes } ∧
     (∀ bs : List Nat, BinaryProtocol.trimNullBytes (BinaryProtocol.trimNullBytes bs) =
       BinaryProtocol.trimNullBytes bs)) :=
  ⟨by unfold ValidPacket c1TestPacket; decide,
   c1_packet_roundtrip c1TestPacket (by unfold ValidPacket c1TestPacket; decide)⟩

/-- Bytes read from a byte array (default 0) stay below 256. -/
theorem jsGetD_lt (data : List Nat) (h : ∀ b ∈ data, b < 256) (i : Nat) :
    jsGetD data i < 256 := by
  unfold jsGetD
  induction data generalizing i with
  | nil => simp [List.getD]
  | cons a t ih =>
    cases i with
    | zero => exact h a (by simp)
    | succ j =>
      simp only [List.getD_cons_succ]
      exact ih (fun b hb => h b (by simp [hb])) j

theorem twoByteVal (a b : Nat) (ha : a < 256) (hb : b < 256) :
    jsOr (jsShl (a : Int) 8) (b : Int) = ((a * 256 + b : Nat) : Int) := by
  rw [jsShl8 _ (by omega), jsOr_small _ _ (by omega) (by omega)]
  have h2 := Nat.mul_add_lt_is_or (show b < 2 ^ 8 by omega) a
  norm_num at h2
  rw [Nat.mul_comm a 256, ← h2, Nat.mul_comm 256 a]

/-- C9: BinaryProtocol.decode is total on buffers of at least 21 bytes: it
always returns a packet, and when the declared 2-byte payload length runs
past the end of the buffer the payload is silently truncated to the bytes
that remain (stated here for the plain case: no recipient flag, no
compression flag). -/
theorem c9_decode_total (data : List Nat) (hlen : 21 ≤ data.length)
    (hbytes : ∀ b ∈ data, b < 256) :
    ∃ p, BinaryProtocol.decode data = some p ∧
      (jsGetD data 11 &&& 1 = 0 → jsGetD data 11 &&& 4 = 0 →
        p.payload.length = min (jsGetD data 12 * 256 + jsGetD data 13) (data.length - 22)) := by
  have hnl : ¬(data.length < 13 + 8) := by omega
  obtain ⟨p, hp⟩ : ∃ p, BinaryProtocol.decode data = some p := by
    rw [BinaryProtocol.decode.eq_def, if_neg hnl]
    exact ⟨_, rfl⟩
  refine ⟨p, hp, ?_⟩
  intro h1 h4
  rw [BinaryProtocol.decode.eq_def, if_neg hnl] at hp
  simp only [eq_false (show ¬(jsGetD data 11 &&& 1 ≠ 0) by omega),
    eq_false (show ¬(jsGetD data 11 &&& 4 ≠ 0) by omega), if_false, false_and,
    Option.map_none'] at hp
  rw [twoByteVal _ _ (jsGetD_lt data hbytes 12) (jsGetD_lt data hbytes 13)] at hp
  rw [show (22 : Int) = ((22 : Nat) : Int) from rfl, slice_drop] at hp
  have hrec := Option.some.inj hp
  rw [← hrec]
  simp only [List.length_take, List.length_drop]

/-- 25-byte buffer whose declared payload length (10) exceeds the 3 bytes
remaining after the sender ID. -/
def c9TestData : List Nat :=
  [1, 4, 7, 0, 0, 0, 0, 0, 0, 0, 0, 0, 0, 10] ++ List.replicate 8 0xAA ++ [1, 2, 3]

/-- Witness for C9 at a concrete truncated buffer. -/
theorem c9_decode_total_witness :
    (21 ≤ c9TestData.length ∧ ∀ b ∈ c9TestData, b < 256) ∧
    (∃ p, BinaryProtocol.decode c9TestData = some p ∧
      (jsGetD c9TestData 11 &&& 1 = 0 → jsGetD c9TestData 11 &&& 4 = 0 →
        p.payload.length =
          min (jsGetD c9TestData 12 * 256 + jsGetD c9TestData 13)
            (c9TestData.length - 22))) :=
  ⟨⟨by decide, by decide⟩, c9_decode_total c9TestData (by decide) (by decide)⟩

/-- Chat message model mirroring `interface BitchatMessage`
(src/src/models/BitchatMessage.ts).  String fields are modelled by their
UTF-8 byte sequences (TextEncoder / TextDecoder are mutually inverse on
valid strings); the timestamp is the Date value in milliseconds, which JS
can drive negative, hence `Int`.  The deliveryStatus field is never touched
by the codec and is omitted. -/
structure BitchatMessage where
  id : List Nat
  sender : List Nat
  content : List Nat
  timestamp : Int
  isRelay : Bool
  isPrivate : Bool
  originalSender : Option (List Nat) := none
  recipientNickname : Option (List Nat) := none
  senderPeerID : List Nat
  mentions : Option (List (List Nat)) := none
  channel : Option (List Nat) := none
  encryptedContent : Option (List Nat) := none
  isEncrypted : Bool
deriving DecidableEq

/-- JS truthiness of an optional string: undefined and the empty string are
both falsy. -/
def truthyStr (o : Option (List Nat)) : Bool :=
  match o with
  | some s => !s.isEmpty
  | none => false

namespace BitchatMessageCodec

/-- Helper addString of toIOSBinaryPayload: 1-byte length (capped at 255)
followed by that many bytes. -/
def addString (bs : List Nat) : List Nat :=
  min bs.length 255 :: bs.take (min bs.length 255)

/-- Helper addContent: 2-byte big-endian length (capped at 65535, written
with JS Number shifts) followed by that many bytes. -/
def addContent (bs : List Nat) : List Nat :=
  let length := min bs.length 65535
  shrByte (length : Int) 8 :: andByte (length : Int) :: bs.take length

/-- BitchatMessageCodec.toIOSBinaryPayload: the compact binary message
format.  The timestamp loop (i = 7..0) uses JS Number shifts `>>` whose
count is taken mod 32, exactly as modelled by shrByte.  The final
`new Uint8Array(data)` reduces every byte mod 256. -/
def toIOSBinaryPayload (m : BitchatMessage) : List Nat :=
  let flags : Nat :=
    (if m.isRelay then 0x01 else 0) |||
    (if m.isPrivate then 0x02 else 0) |||
    (if truthyStr m.originalSender then 0x04 else 0) |||
    (if truthyStr m.recipientNickname then 0x08 else 0) |||
    (if !m.senderPeerID.isEmpty then 0x10 else 0) |||
    (if (match m.mentions with | some l => decide (l.length > 0) | none => false) then 0x20
     else 0) |||
    (if truthyStr m.channel then 0x40 else 0) |||
    (if m.isEncrypted then 0x80 else 0)
  let bytes : List Nat :=
    flags ::
    shrByte m.timestamp 56 :: shrByte m.timestamp 48 :: shrByte m.timestamp 40 ::
    shrByte m.timestamp 32 :: shrByte m.timestamp 24 :: shrByte m.timestamp 16 ::
    shrByte m.timestamp 8 :: shrByte m.timestamp 0 ::
    (addString m.id ++
     addString m.sender ++
     (if m.isEncrypted ∧ m.encryptedContent.isSome then
        addContent (m.encryptedContent.getD [])
      else addContent m.content) ++
     (match m.originalSender with
      | some s => if !s.isEmpty then addString s else []
      | none => []) ++
     (match m.recipientNickname with
      | some s => if !s.isEmpty then addString s else []
      | none => []) ++
     (if !m.senderPeerID.isEmpty then addString m.senderPeerID else []) ++
     (match m.mentions with
      | some l =>
        if l.length > 0 then
          min l.length 255 :: (l.take 255).flatMap addString
        else []
      | none => []) ++
     (match m.channel with
      | some s => if !s.isEmpty then addString s else []
      | none => []))
  bytes.map (· % 256)

/-- The mentions loop of fromIOSBinaryPayload: up to `count` entries, each a
1-byte length followed by the bytes; an entry whose declared length runs
past the buffer consumes only its length byte. -/
def parseMentions (data : List Nat) : Nat → Nat → List (List Nat) × Nat
  | 0, offset => ([], offset)
  | c + 1, offset =>
    if offset < data.length then
      let len := jsGetD data offset
      let o := offset + 1
      if o + len ≤ data.length then
        let entry := (data.drop o).take len
        let r := parseMentions data c (o + len)
        (entry :: r.1, r.2)
      else
        parseMentions data c o
    else ([], offset)

/-- One optional length-prefixed string field of fromIOSBinaryPayload.
Returns the parsed field (if any) and the new offset. -/
def parseOptField (data : List Nat) (cond : Bool) (offset : Nat) :
    Option (List Nat) × Nat :=
  if cond ∧ offset < data.length then
    let len := jsGetD data offset
    let o := offset + 1
    if o + len ≤ data.length then (some ((data.drop o).take len), o + len)
    else (none, o)
  else (none, offset)

/-- BitchatMessageCodec.fromIOSBinaryPayload.  The timestamp accumulator
uses JS Number operators `<<` and `|`, i.e. 32-bit arithmetic (jsShl /
jsOr); the in-range guards of the source are kept as written. -/
def fromIOSBinaryPayload (data : List Nat) : Option BitchatMessage :=
  if data.length < 13 then none
  else
    let flags := jsGetD data 0
    let isRelay := flags &&& 0x01 ≠ 0
    let isPrivate := flags &&& 0x02 ≠ 0
    let hasOriginalSender := flags &&& 0x04 ≠ 0
    let hasRecipientNickname := flags &&& 0x08 ≠ 0
    let hasSenderPeerID := flags &&& 0x10 ≠ 0
    let hasMentions := flags &&& 0x20 ≠ 0
    let hasChannel := flags &&& 0x40 ≠ 0
    let isEncrypted := flags &&& 0x80 ≠ 0
    if 1 + 8 > data.length then none
    else
      let t1 : Int := jsOr (jsShl 0 8) (jsGetD data 1)
      let t2 : Int := jsOr (jsShl t1 8) (jsGetD data 2)
      let t3 : Int := jsOr (jsShl t2 8) (jsGetD data 3)
      let t4 : Int := jsOr (jsShl t3 8) (jsGetD data 4)
      let t5 : Int := jsOr (jsShl t4 8) (jsGetD data 5)
      let t6 : Int := jsOr (jsShl t5 8) (jsGetD data 6)
      let t7 : Int := jsOr (jsShl t6 8) (jsGetD data 7)
      let timestamp : Int := jsOr (jsShl t7 8) (jsGetD data 8)
      if 9 ≥ data.length then none
      else
        let idLength := jsGetD data 9
        if 10 + idLength > data.length then none
        else
          let id := (data.drop 10).take idLength
          let o1 := 10 + idLength
          if o1 ≥ data.length then none
          else
            let senderLength := jsGetD data o1
            if o1 + 1 + senderLength > data.length then none
            else
              let sender := (data.drop (o1 + 1)).take senderLength
              let o2 := o1 + 1 + senderLength
              if o2 + 2 > data.length then none
              else
                let contentLength : Int :=
                  jsOr (jsShl (jsGetD data o2) 8) (jsGetD data (o2 + 1))
                let o3 := o2 + 2
                if (o3 : Int) + contentLength > (data.length : Int) then none
                else
                  let contentBytes := jsSlice data (o3 : Int) ((o3 : Int) + contentLength)
                  let content := if isEncrypted then [] else contentBytes
                  let encryptedContent :=
                    if isEncrypted then some contentBytes else none
                  let o4 := ((o3 : Int) + contentLength).toNat
                  let f1 := parseOptField data (decide hasOriginalSender) o4
                  let f2 := parseOptField data (decide hasRecipientNickname) f1.2
                  let f3 := parseOptField data (decide hasSenderPeerID) f2.2
                  let fm :=
                    if hasMentions ∧ f3.2 < data.length then
                      let mentionCount := jsGetD data f3.2
                      let r := parseMentions data mentionCount (f3.2 + 1)
                      (some r.1, r.2)
                    else ((none : Option (List (List Nat))), f3.2)
                  let f5 := parseOptField data (decide hasChannel) fm.2
                  some
                    { id := id
                      sender := sender
                      content := content
                      timestamp := timestamp
                      isRelay := isRelay
                      isPrivate := isPrivate
                      originalSender := f1.1
                      recipientNickname := f2.1
                      senderPeerID := (f3.1).getD []
                      mentions := fm.1
                      channel := f5.1
                      encryptedContent := encryptedContent
                      isEncrypted := isEncrypted }

end BitchatMessageCodec

def c2TestMessage : BitchatMessage :=
  { id := [0x61]
    sender := [0x62]
    content := [0x68, 0x69]
    timestamp := 1700000000000
    isRelay := false
    isPrivate := false
    senderPeerID := []
    isEncrypted := false }

/-- C2 (code bug): the compact message codec does not round-trip the
timestamp.  The encoder writes `(timestampMillis >> (i * 8)) & 0xFF` with JS
Number shifts, whose count is taken mod 32 and whose operand is truncated to
Int32 — so the eight "big-endian" bytes are the low 32 bits of the timestamp
written twice — and the decoder folds them back with the 32-bit operations
`(t << 8) | b`.  For the realistic epoch timestamp 1700000000000 ms the
decoded message agrees with the original on every field except the
timestamp, which comes back as the Int32 value -807049216.  (The sibling
BinaryProtocol packet codec serializes the same field correctly with BigInt,
and the source comments promise an 8-byte big-endian millisecond
timestamp.) -/
theorem c2_message_roundtrip_bug :
    BitchatMessageCodec.fromIOSBinaryPayload
        (BitchatMessageCodec.toIOSBinaryPayload c2TestMessage) =
      some { c2TestMessage with timestamp := -807049216 } ∧
    c2TestMessage.timestamp = 1700000000000 ∧ ((-807049216 : Int) ≠ 1700000000000) :=
  ⟨by decide, by decide, by decide⟩

/-! The mesh service (WebBluetoothMeshService): dedup, dispatch, relay,
announce validation, fragment reassembly, teardown. -/

/-- WHATWG UTF-8 decode (TextDecoder with fatal:false), producing the code
points of the resulting JS string; malformed input yields U+FFFD and
resumes at the offending byte.  Strings are represented by their code-point
sequences; see jsStrLen for the UTF-16 length. -/
def utf8Decode : List Nat → List Nat
  | [] => []
  | b :: rest =>
    if b < 0x80 then b :: utf8Decode rest
    else if 0xC2 ≤ b ∧ b ≤ 0xDF then
      match rest with
      | c1 :: rest2 =>
        if 0x80 ≤ c1 ∧ c1 ≤ 0xBF then
          ((b - 0xC0) * 64 + (c1 - 0x80)) :: utf8Decode rest2
        else 0xFFFD :: utf8Decode (c1 :: rest2)
      | [] => [0xFFFD]
    else if 0xE0 ≤ b ∧ b ≤ 0xEF then
      match rest with
      | c1 :: rest2 =>
        if (if b = 0xE0 then 0xA0 else 0x80) ≤ c1 ∧
            c1 ≤ (if b = 0xED then 0x9F else 0xBF) then
          match rest2 with
          | c2 :: rest3 =>
            if 0x80 ≤ c2 ∧ c2 ≤ 0xBF then
              ((b - 0xE0) * 4096 + (c1 - 0x80) * 64 + (c2 - 0x80)) :: utf8Decode rest3
            else 0xFFFD :: utf8Decode (c2 :: rest3)
          | [] => [0xFFFD]
        else 0xFFFD :: utf8Decode (c1 :: rest2)
      | [] => [0xFFFD]
    else if 0xF0 ≤ b ∧ b ≤ 0xF4 then
      match rest with
      | c1 :: rest2 =>
        if (if b = 0xF0 then 0x90 else 0x80) ≤ c1 ∧
            c1 ≤ (if b = 0xF4 then 0x8F else 0xBF) then
          match rest2 with
          | c2 :: rest3 =>
            if 0x80 ≤ c2 ∧ c2 ≤ 0xBF then
              match rest3 with
              | c3 :: rest4 =>
                if 0x80 ≤ c3 ∧ c3 ≤ 0xBF then
                  ((b - 0xF0) * 262144 + (c1 - 0x80) * 4096 + (c2 - 0x80) * 64 +
                    (c3 - 0x80)) :: utf8Decode rest4
                else 0xFFFD :: utf8Decode (c3 :: rest4)
              | [] => [0xFFFD]
            else 0xFFFD :: utf8Decode (c2 :: rest3)
          | [] => [0xFFFD]
        else 0xFFFD :: utf8Decode (c1 :: rest2)
      | [] => [0xFFFD]
    else 0xFFFD :: utf8Decode rest

/-- UTF-16 length (JS String.length) of a string given by its code points:
astral code points occupy two code units. -/
def jsStrLen (cps : List Nat) : Nat :=
  (cps.map (fun c => if c ≥ 0x10000 then 2 else 1)).sum

/-- UTF-8 code units of an ASCII string (peer IDs are 16 lowercase hex
characters, so char codes and bytes coincide). -/
def strBytes (s : String) : List Nat := s.data.map Char.toNat

/-- Metadata of one fragment-reassembly session. -/
structure FragmentMeta where
  originalType : Nat
  totalFragments : Nat
  timestamp : Nat
deriving DecidableEq

/-- The in-memory tables of WebBluetoothMeshService.  JS Maps and Sets keep
insertion order and are modelled as association lists without duplicate
keys; devices and characteristics are opaque handles. -/
structure MeshState where
  myPeerID : String
  nickname : List Nat
  isScanning : Bool
  connectedDevices : List (String × Nat)
  deviceCharacteristics : List (Nat × Nat)
  activePeers : List String
  peerNicknames : List (String × List Nat)
  processedMessages : List String
  incomingFragments : List (String × List (Nat × List Nat))
  fragmentMetadata : List (String × FragmentMeta)
deriving DecidableEq

/-- Map.get. -/
def mapGet {β : Type} (m : List (String × β)) (k : String) : Option β :=
  (m.find? (fun e => e.1 == k)).map (·.2)

/-- Map.set: overwrite in place when the key exists, else append (JS Maps
preserve first-insertion order on update). -/
def mapSet {β : Type} (m : List (String × β)) (k : String) (v : β) : List (String × β) :=
  if (m.find? (fun e => e.1 == k)).isSome then
    m.map (fun e => if e.1 == k then (k, v) else e)
  else m ++ [(k, v)]

/-- Map.delete. -/
def mapDelete {β : Type} (m : List (String × β)) (k : String) : List (String × β) :=
  m.filter (fun e => !(e.1 == k))

/-- Inner fragment map (index → chunk), same Map semantics with Nat keys. -/
def imapGet (m : List (Nat × List Nat)) (k : Nat) : Option (List Nat) :=
  (m.find? (fun e => e.1 == k)).map (·.2)

def imapSet (m : List (Nat × List Nat)) (k : Nat) (v : List Nat) : List (Nat × List Nat) :=
  if (m.find? (fun e => e.1 == k)).isSome then
    m.map (fun e => if e.1 == k then (k, v) else e)
  else m ++ [(k, v)]

/-- Set.add. -/
def setAdd (s : List String) (k : String) : List String :=
  if s.contains k then s else s ++ [k]

/-- Set.delete / Map.delete on the peer set. -/
def setDelete (s : List String) (k : String) : List String :=
  s.filter (fun x => !(x == k))

/-- Observable actions of the service: delegate callbacks, transport writes
and scheduled work.  `dispatched` marks entry into the message-type switch;
`relayed` carries the packet handed to broadcastPacket by relayPacket (after
the TTL decrement); `reassembled` carries the buffer handed to
BinaryProtocol.decode after fragment reassembly; `redispatched` marks the
reassembled packet being fed back into handleReceivedPacket. -/
inductive MeshEvent where
  | dispatched (type : Nat) (senderID : String)
  | delegateMessage (m : BitchatMessage)
  | delegatePeerListUpdated
  | delegatePeerDisconnected (peerID : String)
  | relayed (p : BitchatPacket)
  | broadcast (p : BitchatPacket)
  | reassembled (fragmentID : String) (data : List Nat)
  | redispatched (p : BitchatPacket)
  | timeoutScheduled (fragmentID : String)
  | disconnected (device : Nat)
deriving DecidableEq

/-- The dedup key: `senderID-timestamp-hex(first 8 payload bytes)`. -/
def packetKey (senderID : String) (p : BitchatPacket) : String :=
  senderID ++ "-" ++ toString p.timestamp ++ "-" ++ bytesToHex (p.payload.take 8)

/-- relayPacket's clone: `{ ...originalPacket }` with `ttl -= 1` (only
invoked with ttl ≥ 2).  The relay probability is 1.0 and
`Math.random() > 1.0` never holds, so the relay always fires; the 50-150 ms
jitter delays the broadcast but does not change it. -/
def relayClone (p : BitchatPacket) : BitchatPacket := { p with ttl := p.ttl - 1 }

/-- handleAnnounce: decode the nickname, reject if longer than 100 UTF-16
units, containing NUL, or containing anything outside printable ASCII
(`/[^\x20-\x7E]/` over code units; a code point outside the BMP yields
surrogate units, which are likewise outside 0x20-0x7E, so testing code
points is equivalent); otherwise record the nickname and mark the sender
active. -/
def handleAnnounce (st : MeshState) (p : BitchatPacket) (senderID : String) :
    MeshState × List MeshEvent :=
  let nickname := utf8Decode p.payload
  if jsStrLen nickname > 100 ∨ nickname.contains 0 ∨
      nickname.any (fun c => decide (c < 0x20) || decide (0x7E < c)) then
    (st, [])
  else
    ({ st with
        peerNicknames := mapSet st.peerNicknames senderID nickname,
        activePeers := setAdd st.activePeers senderID },
     [MeshEvent.delegatePeerListUpdated])

/-- fromBinaryPayload: iOS compact format first, then the JSON fallback.
The fallback depends on the host JSON parser; it is abstracted as a
parameter, and every theorem below holds for every such parser. -/
def fromBinaryPayload (jsonFallback : List Nat → Option BitchatMessage)
    (payload : List Nat) : Option BitchatMessage :=
  match BitchatMessageCodec.fromIOSBinaryPayload payload with
  | some m => some m
  | none => jsonFallback payload

/-- `recipientID.every((byte, index) => byte === BROADCAST[index])`: every
position of the (possibly trimmed) recipient array matches the broadcast
address; an index beyond BROADCAST reads undefined and fails the strict
equality (default 256 is no byte value). -/
def isBroadcastArr (r : List Nat) : Bool :=
  (List.range r.length).all (fun i => r.getD i 0 == SpecialRecipients.BROADCAST.getD i 256)

/-- handleMessage: decode the chat payload, deliver it to the delegate when
addressed to us or broadcast (missing recipientID also counts as
broadcast), after stamping senderPeerID. -/
def handleMessage (jsonFallback : List Nat → Option BitchatMessage)
    (st : MeshState) (p : BitchatPacket) (senderID : String) :
    MeshState × List MeshEvent :=
  match fromBinaryPayload jsonFallback p.payload with
  | none => (st, [])
  | some message =>
    let isForUs :=
      match p.recipientID with
      | some r => bytesToHex r == st.myPeerID
      | none => false
    let isBroadcast :=
      (match p.recipientID with
       | some r => isBroadcastArr r
       | none => false) || p.recipientID.isNone
    if isForUs || isBroadcast then
      (st, [MeshEvent.delegateMessage { message with senderPeerID := strBytes senderID }])
    else (st, [])

/-- handleLeave: drop the peer and notify the delegate. -/
def handleLeave (st : MeshState) (senderID : String) : MeshState × List MeshEvent :=
  ({ st with
      activePeers := setDelete st.activePeers senderID,
      peerNicknames := mapDelete st.peerNicknames senderID },
   [MeshEvent.delegatePeerDisconnected senderID, MeshEvent.delegatePeerListUpdated])

/-- Total size of all buffered fragment chunks. -/
def fragmentsTotalBytes (m : List (String × List (Nat × List Nat))) : Nat :=
  (m.map (fun e => (e.2.map (fun f => f.2.length)).sum)).sum

/-- The oldest-first eviction loop of cleanupOldFragments (while
totalFragmentBytes > max and entries remain). -/
def evictLoop : MeshState → Nat → List (String × FragmentMeta) → MeshState
  | st, _, [] => st
  | st, totalBytes, (fragID, _) :: rest =>
    if totalBytes > 10 * 1024 * 1024 then
      let sub :=
        match mapGet st.incomingFragments fragID with
        | some frs => (frs.map (fun f => f.2.length)).sum
        | none => 0
      evictLoop
        { st with
            incomingFragments := mapDelete st.incomingFragments fragID,
            fragmentMetadata := mapDelete st.fragmentMetadata fragID }
        (totalBytes - sub) rest
    else st

/-- cleanupOldFragments: drop sessions older than the 30 s timeout, then
enforce the 10 MB budget, evicting oldest-first (stable sort by creation
time, as Array.prototype.sort with a numeric comparator). -/
def cleanupOldFragments (now : Nat) (st : MeshState) : MeshState :=
  let cutoff : Int := (now : Int) - 30000
  let fragmentsToRemove :=
    (st.fragmentMetadata.filter (fun e => decide ((e.2.timestamp : Int) < cutoff))).map (·.1)
  let st1 :=
    { st with
        incomingFragments :=
          st.incomingFragments.filter (fun e => !(fragmentsToRemove.contains e.1)),
        fragmentMetadata :=
          st.fragmentMetadata.filter (fun e => !(fragmentsToRemove.contains e.1)) }
  let totalBytes := fragmentsTotalBytes st1.incomingFragments
  if totalBytes > 10 * 1024 * 1024 then
    evictLoop st1 totalBytes
      (st1.fragmentMetadata.mergeSort (fun a b => decide (a.2.timestamp ≤ b.2.timestamp)))
  else st1

/-- The reassembly loop: chunks in index order 0..total-1, failing when one
is missing. -/
def reassembleLoop (fragments : List (Nat × List Nat)) : List Nat → Option (List Nat)
  | [] => some []
  | i :: rest =>
    match imapGet fragments i with
    | none => none
    | some chunk => (reassembleLoop fragments rest).map (fun tl => chunk ++ tl)

/-- Session initialisation for the first fragment of an unseen id: enforce
the 50-session cap (sweeping old sessions first), then create the empty
session and its metadata.  The Bool is true when the new session was
refused at the cap. -/
def fragInit (now : Nat) (st : MeshState) (fragmentID : String)
    (originalType total : Nat) : MeshState × Bool :=
  if (mapGet st.incomingFragments fragmentID).isNone then
    if st.incomingFragments.length ≥ 50 then
      let stc := cleanupOldFragments now st
      if stc.incomingFragments.length ≥ 50 then (stc, true)
      else
        ({ stc with
            incomingFragments := mapSet stc.incomingFragments fragmentID [],
            fragmentMetadata :=
              mapSet stc.fragmentMetadata fragmentID ⟨originalType, total, now⟩ }, false)
    else
      ({ st with
          incomingFragments := mapSet st.incomingFragments fragmentID [],
          fragmentMetadata :=
            mapSet st.fragmentMetadata fragmentID ⟨originalType, total, now⟩ }, false)
  else (st, false)

/-- All fragments present: reassemble in index order, decode, destroy the
session, re-process the reassembled packet, and run the trailing cleanup. -/
def fragComplete (recurse : MeshState → BitchatPacket → String → MeshState × List MeshEvent)
    (now : Nat) (st2 : MeshState) (fragmentID : String) (total : Nat)
    (fragments1 : List (Nat × List Nat)) (senderID : String) :
    MeshState × List MeshEvent :=
  match reassembleLoop fragments1 (List.range total) with
  | none => (st2, [])
  | some reassembledData =>
    match BinaryProtocol.decode reassembledData with
    | some reassembledPacket =>
      let st3 :=
        { st2 with
            incomingFragments := mapDelete st2.incomingFragments fragmentID,
            fragmentMetadata := mapDelete st2.fragmentMetadata fragmentID }
      let r := recurse st3 reassembledPacket senderID
      (cleanupOldFragments now r.1,
       MeshEvent.reassembled fragmentID reassembledData ::
         MeshEvent.redispatched reassembledPacket :: r.2)
    | none =>
      (cleanupOldFragments now st2,
       [MeshEvent.reassembled fragmentID reassembledData])

/-- The fragment-0-of-2 immediate-processing workaround: try the chat codec
on the bare chunk, then the packet codec (MESSAGE packets only); both paths
destroy the session on success.  `none` means the workaround fell through. -/
def fragImmediate (recurse : MeshState → BitchatPacket → String → MeshState × List MeshEvent)
    (jsonFallback : List Nat → Option BitchatMessage) (st2 : MeshState)
    (fragmentID : String) (fragmentData : List Nat) (senderID : String) :
    Option (MeshState × List MeshEvent) :=
  match fromBinaryPayload jsonFallback fragmentData with
  | some immediateMessage =>
    some
      ({ st2 with
          incomingFragments := mapDelete st2.incomingFragments fragmentID,
          fragmentMetadata := mapDelete st2.fragmentMetadata fragmentID },
       [MeshEvent.delegateMessage
          { immediateMessage with senderPeerID := strBytes senderID }])
  | none =>
    match BinaryProtocol.decode fragmentData with
    | some immediatePacket =>
      if immediatePacket.type = MessageType.MESSAGE then
        let r := recurse st2 immediatePacket senderID
        some
          ({ r.1 with
              incomingFragments := mapDelete r.1.incomingFragments fragmentID,
              fragmentMetadata := mapDelete r.1.fragmentMetadata fragmentID },
           r.2)
      else none
    | none => none

/-- The single-buffered-fragment workaround (packet codec first, MESSAGE
packets only, then the chat codec). -/
def fragSingle (recurse : MeshState → BitchatPacket → String → MeshState × List MeshEvent)
    (jsonFallback : List Nat → Option BitchatMessage) (st2 : MeshState)
    (fragmentID : String) (fragments1 : List (Nat × List Nat)) (senderID : String) :
    Option (MeshState × List MeshEvent) :=
  match imapGet fragments1 0 with
  | some singleFragment =>
    match BinaryProtocol.decode singleFragment with
    | some potentialPacket =>
      if potentialPacket.type = MessageType.MESSAGE then
        let r := recurse st2 potentialPacket senderID
        some
          ({ r.1 with
              incomingFragments := mapDelete r.1.incomingFragments fragmentID,
              fragmentMetadata := mapDelete r.1.fragmentMetadata fragmentID },
           r.2)
      else
        match fromBinaryPayload jsonFallback singleFragment with
        | some message =>
          some
            ({ st2 with
                incomingFragments := mapDelete st2.incomingFragments fragmentID,
                fragmentMetadata := mapDelete st2.fragmentMetadata fragmentID },
             [MeshEvent.delegateMessage
                { message with senderPeerID := strBytes senderID }])
        | none => none
    | none =>
      match fromBinaryPayload jsonFallback singleFragment with
      | some message =>
        some
          ({ st2 with
              incomingFragments := mapDelete st2.incomingFragments fragmentID,
              fragmentMetadata := mapDelete st2.fragmentMetadata fragmentID },
           [MeshEvent.delegateMessage
              { message with senderPeerID := strBytes senderID }])
      | none => none
  | none => none

/-- handleFragment (the body shared by handleFragmentStart / Continue /
End), parameterized by the recursive re-entry into handleReceivedPacket.
Payload bytes come from a Uint8Array, so the 16-bit index/total reads
`(a << 8) | b` are exact and written with Nat operators.  The asynchronous
2 s timeout callback (aggressive recovery) is represented by the
`timeoutScheduled` event; only the synchronous path is modelled. -/
def handleFragmentCore
    (recurse : MeshState → BitchatPacket → String → MeshState × List MeshEvent)
    (jsonFallback : List Nat → Option BitchatMessage)
    (now : Nat) (st : MeshState) (p : BitchatPacket) (senderID : String) :
    MeshState × List MeshEvent :=
  if p.payload.length < 13 then (st, [])
  else
    let fragmentID := bytesToHex (p.payload.take 8)
    let index := jsGetD p.payload 8 <<< 8 ||| jsGetD p.payload 9
    let total := jsGetD p.payload 10 <<< 8 ||| jsGetD p.payload 11
    let originalType := jsGetD p.payload 12
    let fragmentData := p.payload.drop 13
    match fragInit now st fragmentID originalType total with
    | (st1, true) => (st1, [])
    | (st1, false) =>
      let fragments1 :=
        imapSet ((mapGet st1.incomingFragments fragmentID).getD []) index fragmentData
      let st2 :=
        { st1 with incomingFragments := mapSet st1.incomingFragments fragmentID fragments1 }
      if fragments1.length = total then
        fragComplete recurse now st2 fragmentID total fragments1 senderID
      else
        match
          (if index = 0 ∧ total = 2 then
            fragImmediate recurse jsonFallback st2 fragmentID fragmentData senderID
          else none) with
        | some result => result
        | none =>
          match
            (if fragments1.length = 1 ∧ total = 2 ∧ index = 0 then
              fragSingle recurse jsonFallback st2 fragmentID fragments1 senderID
            else none) with
          | some result => result
          | none =>
            (cleanupOldFragments now st2, [MeshEvent.timeoutScheduled fragmentID])

/-- handleReceivedPacket: TTL gate, dedup gate, sender bookkeeping, type
dispatch, then relay when ttl > 1.  Fragment reassembly re-enters this
function on the reassembled packet; the recursion is bounded by explicit
fuel (every theorem quantifies over all fuel values, and the fuel only runs
out where the source would recurse deeper). -/
def handleReceivedPacket (jsonFallback : List Nat → Option BitchatMessage) (now : Nat) :
    Nat → MeshState → BitchatPacket → String → MeshState × List MeshEvent
  | 0, st, _, _ => (st, [])
  | fuel + 1, st, p, senderID =>
    if p.ttl = 0 then (st, [])
    else
      let key := packetKey senderID p
      if st.processedMessages.contains key then (st, [])
      else
        let st1 := { st with processedMessages := st.processedMessages ++ [key] }
        let st2 := { st1 with activePeers := setAdd st1.activePeers senderID }
        let r :=
          if p.type = MessageType.ANNOUNCE ∨ p.type = 0x02 then
            handleAnnounce st2 p senderID
          else if p.type = MessageType.MESSAGE then
            handleMessage jsonFallback st2 p senderID
          else if p.type = MessageType.LEAVE then
            handleLeave st2 senderID
          else if p.type = MessageType.FRAGMENT_START ∨
              p.type = MessageType.FRAGMENT_CONTINUE ∨
              p.type = MessageType.FRAGMENT_END then
            handleFragmentCore (handleReceivedPacket jsonFallback now fuel) jsonFallback now
              st2 p senderID
          else
            (st2, [])
        let evs := MeshEvent.dispatched p.type senderID :: r.2
        if p.ttl > 1 then (r.1, evs ++ [MeshEvent.relayed (relayClone p)])
        else (r.1, evs)

/-- handleFragment as invoked from the three fragment cases of the switch. -/
def handleFragment (jsonFallback : List Nat → Option BitchatMessage) (now : Nat)
    (fuel : Nat) : MeshState → BitchatPacket → String → MeshState × List MeshEvent :=
  handleFragmentCore (handleReceivedPacket jsonFallback now fuel) jsonFallback now

/-- handleCharacteristicValueChanged: decode the raw bytes, ignore our own
packets, then process. -/
def handleCharacteristicValueChanged (jsonFallback : List Nat → Option BitchatMessage)
    (now : Nat) (fuel : Nat) (st : MeshState) (data : List Nat) :
    MeshState × List MeshEvent :=
  match BinaryProtocol.decode data with
  | none => (st, [])
  | some packet =>
    let senderID := bytesToHex packet.senderID
    if senderID = st.myPeerID then (st, [])
    else handleReceivedPacket jsonFallback now fuel st packet senderID

/-- The LEAVE packet of sendLeaveNotification. -/
def leavePacket (now : Nat) (st : MeshState) : BitchatPacket :=
  { version := 1
    type := MessageType.LEAVE
    ttl := 3
    timestamp := now
    senderID := hexToBytes st.myPeerID.data
    recipientID := none
    payload := st.nickname
    signature := none }

/-- stopService: stop scanning, best-effort LEAVE broadcast while devices
are still connected, disconnect every device, then clear connectedDevices,
deviceCharacteristics and activePeers (and nothing else). -/
def stopService (now : Nat) (st : MeshState) : MeshState × List MeshEvent :=
  let st0 := { st with isScanning := false }
  let evs1 :=
    if st0.connectedDevices.length > 0 then [MeshEvent.broadcast (leavePacket now st0)]
    else []
  let evs2 := st0.connectedDevices.map (fun d => MeshEvent.disconnected d.2)
  ({ st0 with connectedDevices := [], deviceCharacteristics := [], activePeers := [] },
   evs1 ++ evs2)

/-! Basic facts about the Map/Set embedding and cleanupOldFragments. -/

theorem mapGet_nil {β : Type} (k : String) : mapGet ([] : List (String × β)) k = none := rfl

theorem mapGet_single {β : Type} (k : String) (v : β) : mapGet [(k, v)] k = some v := by
  simp [mapGet]

theorem mapSet_nil {β : Type} (k : String) (v : β) :
    mapSet ([] : List (String × β)) k v = [(k, v)] := by
  simp [mapSet]

theorem mapSet_single {β : Type} (k : String) (v w : β) :
    mapSet [(k, v)] k w = [(k, w)] := by
  simp [mapSet]

theorem mapDelete_single {β : Type} (k : String) (v : β) : mapDelete [(k, v)] k = [] := by
  simp [mapDelete]

theorem mapSet_length_le {β : Type} (m : List (String × β)) (k : String) (v : β) :
    (mapSet m k v).length ≤ m.length + 1 := by
  unfold mapSet
  split
  · simp
  · simp

theorem mapDelete_length_le {β : Type} (m : List (String × β)) (k : String) :
    (mapDelete m k).length ≤ m.length :=
  List.length_filter_le _ m

theorem evictLoop_frame (l : List (String × FragmentMeta)) :
    ∀ st tb, (evictLoop st tb l).myPeerID = st.myPeerID ∧
      (evictLoop st tb l).nickname = st.nickname ∧
      (evictLoop st tb l).isScanning = st.isScanning ∧
      (evictLoop st tb l).connectedDevices = st.connectedDevices ∧
      (evictLoop st tb l).deviceCharacteristics = st.deviceCharacteristics ∧
      (evictLoop st tb l).activePeers = st.activePeers ∧
      (evictLoop st tb l).peerNicknames = st.peerNicknames ∧
      (evictLoop st tb l).processedMessages = st.processedMessages := by
  induction l with
  | nil => intro st tb; exact ⟨rfl, rfl, rfl, rfl, rfl, rfl, rfl, rfl⟩
  | cons hd tl ih =>
    intro st tb
    unfold evictLoop
    split
    · exact ih _ _
    · exact ⟨rfl, rfl, rfl, rfl, rfl, rfl, rfl, rfl⟩

theorem cleanup_frame (now : Nat) (st : MeshState) :
    (cleanupOldFragments now st).myPeerID = st.myPeerID ∧
    (cleanupOldFragments now st).nickname = st.nickname ∧
    (cleanupOldFragments now st).isScanning = st.isScanning ∧
    (cleanupOldFragments now st).connectedDevices = st.connectedDevices ∧
    (cleanupOldFragments now st).deviceCharacteristics = st.deviceCharacteristics ∧
    (cleanupOldFragments now st).activePeers = st.activePeers ∧
    (cleanupOldFragments now st).peerNicknames = st.peerNicknames ∧
    (cleanupOldFragments now st).processedMessages = st.processedMessages := by
  unfold cleanupOldFragments
  simp only []
  split
  · exact evictLoop_frame _ _ _
  · exact ⟨rfl, rfl, rfl, rfl, rfl, rfl, rfl, rfl⟩

theorem evictLoop_length (l : List (String × FragmentMeta)) :
    ∀ st tb, (evictLoop st tb l).incomingFragments.length ≤ st.incomingFragments.length := by
  induction l with
  | nil => intro st tb; exact Nat.le_refl _
  | cons hd tl ih =>
    intro st tb
    unfold evictLoop
    split
    · exact Nat.le_trans (ih _ _) (mapDelete_length_le _ _)
    · exact Nat.le_refl _

theorem cleanup_length (now : Nat) (st : MeshState) :
    (cleanupOldFragments now st).incomingFragments.length ≤ st.incomingFragments.length := by
  unfold cleanupOldFragments
  simp only []
  split
  · exact Nat.le_trans (evictLoop_length _ _ _) (List.length_filter_le _ _)
  · exact List.length_filter_le _ _

/-- C10: a packet whose hex-encoded senderID equals the node's own peer ID is
discarded by handleCharacteristicValueChanged before any processing: the
state is untouched (no dedup record, no peer update) and no handler,
delegate call or relay happens, for every message type and every ttl. -/
theorem c10_own_packets_ignored (jsonFallback : List Nat → Option BitchatMessage)
    (now fuel : Nat) (st : MeshState) (data : List Nat) (p : BitchatPacket)
    (hdec : BinaryProtocol.decode data = some p)
    (hown : bytesToHex p.senderID = st.myPeerID) :
    handleCharacteristicValueChanged jsonFallback now fuel st data = (st, []) := by
  unfold handleCharacteristicValueChanged
  rw [hdec]
  simp [hown]

/-- 21-byte buffer for the C10 witness: version 1, MESSAGE, ttl 7, sender
id bytes 17..24. -/
def c10TestData : List Nat :=
  [1, 4, 7, 0, 0, 0, 0, 0, 0, 0, 99, 0, 0, 0, 17, 18, 19, 20, 21, 22, 23, 24]

/-- The node state whose own peer ID matches c10TestData's sender. -/
def c10TestState : MeshState :=
  { myPeerID := bytesToHex [17, 18, 19, 20, 21, 22, 23, 24]
    nickname := []
    isScanning := true
    connectedDevices := []
    deviceCharacteristics := []
    activePeers := []
    peerNicknames := []
    processedMessages := []
    incomingFragments := []
    fragmentMetadata := [] }

/-- Witness for C10 at a concrete buffer and state. -/
theorem c10_own_packets_ignored_witness :
    handleCharacteristicValueChanged (fun _ => none) 1000 5 c10TestState c10TestData =
      (c10TestState, []) :=
  c10_own_packets_ignored (fun _ => none) 1000 5 c10TestState c10TestData
    { version := 1
      type := 4
      ttl := 7
      timestamp := 99
      senderID := [17, 18, 19, 20, 21, 22, 23, 24]
      recipientID := none
      payload := []
      signature := none }
    (by decide) (by decide)

/-- C8 (amended): stopService stops scanning, broadcasts one LEAVE while
devices are still connected, disconnects every device, and clears exactly
connectedDevices, deviceCharacteristics and activePeers — the nickname map,
the processed-message dedup cache and both fragment-session tables survive
the shutdown. -/
theorem c8_stop_service_effects (now : Nat) (st : MeshState) :
    (stopService now st).1.isScanning = false ∧
    (stopService now st).1.connectedDevices = [] ∧
    (stopService now st).1.deviceCharacteristics = [] ∧
    (stopService now st).1.activePeers = [] ∧
    (stopService now st).1.peerNicknames = st.peerNicknames ∧
    (stopService now st).1.processedMessages = st.processedMessages ∧
    (stopService now st).1.incomingFragments = st.incomingFragments ∧
    (stopService now st).1.fragmentMetadata = st.fragmentMetadata ∧
    (stopService now st).2 =
      (if st.connectedDevices.length > 0 then
        [MeshEvent.broadcast (leavePacket now { st with isScanning := false })]
      else []) ++ st.connectedDevices.map (fun d => MeshEvent.disconnected d.2) :=
  ⟨rfl, rfl, rfl, rfl, rfl, rfl, rfl, rfl, rfl⟩

/-- A running service with one connection and data in every table. -/
def c8TestState : MeshState :=
  { myPeerID := "1a2b3c4d5e6f7081"
    nickname := [110, 111, 100, 101]
    isScanning := true
    connectedDevices := [("peer22", 1)]
    deviceCharacteristics := [(1, 1)]
    activePeers := ["peer22"]
    peerNicknames := [("peer22", [65, 66])]
    processedMessages := ["peer22-5-00"]
    incomingFragments := [("0102030405060708", [(0, [1, 2])])]
    fragmentMetadata := [("0102030405060708", ⟨4, 2, 0⟩)] }

/-- Counterexample to C8 as stated: after stopService the nickname map,
dedup cache and fragment tables are all still populated, so not every
in-memory table of the service is cleared. -/
theorem c8_tables_survive_counterexample :
    (stopService 0 c8TestState).1.peerNicknames ≠ [] ∧
    (stopService 0 c8TestState).1.processedMessages ≠ [] ∧
    (stopService 0 c8TestState).1.incomingFragments ≠ [] ∧
    (stopService 0 c8TestState).1.fragmentMetadata ≠ [] ∧
    (stopService 0 c8TestState).2 =
      [MeshEvent.broadcast (leavePacket 0 { c8TestState with isScanning := false }),
       MeshEvent.disconnected 1] := by
  refine ⟨?_, ?_, ?_, ?_, rfl⟩ <;> decide

/-- C7 (amended): a rejected announcement (payload over 100 UTF-16 units,
containing NUL, or containing anything outside printable ASCII) records no
nickname and emits no delegate callback — handleAnnounce itself is a no-op —
but the enclosing dispatcher has already recorded the dedup key and added
the sender to the active-peer set before validation, so the packet is not
free of peer-state mutation. -/
theorem c7_announce_rejected (jsonFallback : List Nat → Option BitchatMessage)
    (now fuel : Nat) (st : MeshState) (p : BitchatPacket) (sid : String)
    (hty : p.type = MessageType.ANNOUNCE ∨ p.type = 0x02)
    (httl : p.ttl ≠ 0)
    (hnew : st.processedMessages.contains (packetKey sid p) = false)
    (hbad : jsStrLen (utf8Decode p.payload) > 100 ∨
      (utf8Decode p.payload).contains 0 = true ∨
      (utf8Decode p.payload).any (fun c => decide (c < 0x20) || decide (0x7E < c)) = true) :
    handleReceivedPacket jsonFallback now (fuel + 1) st p sid =
      ({ st with
          processedMessages := st.processedMessages ++ [packetKey sid p],
          activePeers := setAdd st.activePeers sid },
       if p.ttl > 1 then
         [MeshEvent.dispatched p.type sid, MeshEvent.relayed (relayClone p)]
       else [MeshEvent.dispatched p.type sid]) := by
  unfold handleReceivedPacket
  rw [if_neg httl]
  simp only [hnew, Bool.false_eq_true, if_false]
  rw [if_pos hty]
  unfold handleAnnounce
  rw [if_pos hbad]
  by_cases h : p.ttl > 1
  · simp [h]
  · simp [h]

/-- A 101-byte all-ASCII announcement payload: one character too long, so
the validator rejects it. -/
def c7TestPacket : BitchatPacket :=
  { version := 1
    type := 1
    ttl := 1
    timestamp := 5
    senderID := [0xAB]
    recipientID := none
    payload := List.replicate 101 65
    signature := none }

/-- A fresh node state for the C7 runs. -/
def c7TestState : MeshState :=
  { myPeerID := "0011223344556677"
    nickname := []
    isScanning := true
    connectedDevices := []
    deviceCharacteristics := []
    activePeers := []
    peerNicknames := []
    processedMessages := []
    incomingFragments := []
    fragmentMetadata := [] }

/-- Witness for C7 at the concrete over-long announcement. -/
theorem c7_announce_rejected_witness :
    handleReceivedPacket (fun _ => none) 7 (2 + 1) c7TestState c7TestPacket "ab" =
      ({ c7TestState with
          processedMessages := [packetKey "ab" c7TestPacket],
          activePeers := ["ab"] },
       [MeshEvent.dispatched 1 "ab"]) :=
  (c7_announce_rejected (fun _ => none) 7 2 c7TestState c7TestPacket "ab"
    (Or.inl rfl) (by decide) (by decide) (Or.inl (by decide))).trans (by decide)

/-- Counterexample to C7 as stated: the rejected announcement records no
nickname, yet it does mutate peer state — the sender lands in the
active-peer set and the dedup cache grows. -/
theorem c7_announce_rejected_counterexample :
    jsStrLen (utf8Decode c7TestPacket.payload) > 100 ∧
    (handleReceivedPacket (fun _ => none) 7 3 c7TestState c7TestPacket "ab").1.peerNicknames
      = [] ∧
    (handleReceivedPacket (fun _ => none) 7 3 c7TestState c7TestPacket "ab").1.activePeers
      = ["ab"] ∧
    (handleReceivedPacket (fun _ => none) 7 3 c7TestState c7TestPacket "ab").1.processedMessages
      ≠ [] := by
  refine ⟨by decide, ?_, ?_, ?_⟩ <;> decide

/-- handleMessage delivers exactly one delegate message when the payload
decodes and the packet is addressed to us or broadcast. -/
theorem handleMessage_accepts (jsonFallback : List Nat → Option BitchatMessage)
    (st : MeshState) (p : BitchatPacket) (sid : String) (m : BitchatMessage)
    (hdec : fromBinaryPayload jsonFallback p.payload = some m)
    (hacc : (match p.recipientID with
             | some r => bytesToHex r == st.myPeerID || isBroadcastArr r
             | none => true) = true) :
    handleMessage jsonFallback st p sid =
      (st, [MeshEvent.delegateMessage { m with senderPeerID := strBytes sid }]) := by
  unfold handleMessage
  rw [hdec]
  cases hrec : p.recipientID with
  | none => simp
  | some r =>
    rw [hrec] at hacc
    simp only [Option.isNone_some, Bool.or_false]
    rcases Bool.or_eq_true_iff.mp hacc with h | h
    · simp [h]
    · simp [h]

/-- C4: a fresh accepted MESSAGE packet produces exactly one delegate
message, and a second reception sharing the dedup key (any relay path, any
nonzero or zero ttl, any payload beyond the first 8 bytes) is dropped with
no dispatch, no delegate call and no relay. -/
theorem c4_duplicate_suppressed (jsonFallback : List Nat → Option BitchatMessage)
    (now fuel fuel2 : Nat) (st : MeshState) (p p2 : BitchatPacket) (sid : String)
    (m : BitchatMessage)
    (hty : p.type = MessageType.MESSAGE)
    (httl : p.ttl ≠ 0)
    (hnew : st.processedMessages.contains (packetKey sid p) = false)
    (hdec : fromBinaryPayload jsonFallback p.payload = some m)
    (hacc : (match p.recipientID with
             | some r => bytesToHex r == st.myPeerID || isBroadcastArr r
             | none => true) = true)
    (hkey : packetKey sid p2 = packetKey sid p) :
    ((handleReceivedPacket jsonFallback now (fuel + 1) st p sid).2.filter
        (fun ev => match ev with | MeshEvent.delegateMessage _ => true | _ => false)) =
      [MeshEvent.delegateMessage { m with senderPeerID := strBytes sid }] ∧
    handleReceivedPacket jsonFallback now (fuel2 + 1)
        (handleReceivedPacket jsonFallback now (fuel + 1) st p sid).1 p2 sid =
      ((handleReceivedPacket jsonFallback now (fuel + 1) st p sid).1, []) := by
  have hrun : handleReceivedPacket jsonFallback now (fuel + 1) st p sid =
      ({ st with
          processedMessages := st.processedMessages ++ [packetKey sid p],
          activePeers := setAdd st.activePeers sid },
       if p.ttl > 1 then
         [MeshEvent.dispatched p.type sid,
          MeshEvent.delegateMessage { m with senderPeerID := strBytes sid },
          MeshEvent.relayed (relayClone p)]
       else
         [MeshEvent.dispatched p.type sid,
          MeshEvent.delegateMessage { m with senderPeerID := strBytes sid }]) := by
    unfold handleReceivedPacket
    rw [if_neg httl]
    simp only [hnew, Bool.false_eq_true, if_false]
    simp only [hty]
    rw [if_neg (by decide :
      ¬(MessageType.MESSAGE = MessageType.ANNOUNCE ∨ MessageType.MESSAGE = 0x02))]
    simp only [if_true]
    rw [handleMessage_accepts jsonFallback _ p sid m hdec (by exact hacc)]
    by_cases h : p.ttl > 1
    · simp [h]
    · simp [h]
  constructor
  · rw [hrun]
    by_cases h : p.ttl > 1
    · simp [h]
    · simp [h]
  · rw [hrun]
    unfold handleReceivedPacket
    by_cases h0 : p2.ttl = 0
    · rw [if_pos h0]
    · rw [if_neg h0]
      have hc : (st.processedMessages ++ [packetKey sid p]).contains (packetKey sid p2)
          = true := by
        rw [hkey]
        simp
      simp only [hc, if_true]

/-- Simple broadcast chat message for the C4 witness (timestamp small
enough to survive the 32-bit timestamp truncation of the codec). -/
def c4TestMessage : BitchatMessage :=
  { id := [0x31]
    sender := [0x73]
    content := [0x68, 0x69]
    timestamp := 1234
    isRelay := false
    isPrivate := false
    senderPeerID := []
    isEncrypted := false }

/-- The MESSAGE packet carrying c4TestMessage, ttl 2 (relayed once). -/
def c4TestPacket : BitchatPacket :=
  { version := 1
    type := 4
    ttl := 2
    timestamp := 77
    senderID := [0xCD]
    recipientID := none
    payload := BitchatMessageCodec.toIOSBinaryPayload c4TestMessage
    signature := none }

/-- A fresh node state for the C4 runs. -/
def c4TestState : MeshState :=
  { myPeerID := "ffeeddccbbaa9988"
    nickname := []
    isScanning := true
    connectedDevices := []
    deviceCharacteristics := []
    activePeers := []
    peerNicknames := []
    processedMessages := []
    incomingFragments := []
    fragmentMetadata := [] }

/-- Witness for C4: the concrete first reception delivers the message once,
and replaying the same packet afterwards is a complete no-op. -/
theorem c4_duplicate_suppressed_witness :
    ((handleReceivedPacket (fun _ => none) 3 (0 + 1) c4TestState c4TestPacket "cd").2.filter
        (fun ev => match ev with | MeshEvent.delegateMessage _ => true | _ => false)) =
      [MeshEvent.delegateMessage { c4TestMessage with senderPeerID := strBytes "cd" }] ∧
    handleReceivedPacket (fun _ => none) 3 (0 + 1)
        (handleReceivedPacket (fun _ => none) 3 (0 + 1) c4TestState c4TestPacket "cd").1
        c4TestPacket "cd" =
      ((handleReceivedPacket (fun _ => none) 3 (0 + 1) c4TestState c4TestPacket "cd").1, []) :=
  c4_duplicate_suppressed (fun _ => none) 3 0 0 c4TestState c4TestPacket c4TestPacket "cd"
    c4TestMessage (by decide) (by decide) (by decide) (by decide) (by decide) rfl

/-- Every relay observation carries the one-step-decremented clone of a
packet whose received ttl was at least 2; other events are unconstrained. -/
def relayedOk : MeshEvent → Prop
  | MeshEvent.relayed q => ∃ p : BitchatPacket, p.ttl > 1 ∧ q = relayClone p
  | _ => True

theorem handleAnnounce_relayedOk (st : MeshState) (p : BitchatPacket) (sid : String) :
    ∀ ev ∈ (handleAnnounce st p sid).2, relayedOk ev := by
  intro ev hev
  unfold handleAnnounce at hev
  simp only [] at hev
  split at hev
  · simp at hev
  · simp at hev
    subst hev
    trivial

theorem handleMessage_relayedOk (jsonFallback : List Nat → Option BitchatMessage)
    (st : MeshState) (p : BitchatPacket) (sid : String) :
    ∀ ev ∈ (handleMessage jsonFallback st p sid).2, relayedOk ev := by
  intro ev hev
  unfold handleMessage at hev
  split at hev
  · simp at hev
  · simp only [] at hev
    split at hev
    · simp at hev
      subst hev
      trivial
    · simp at hev

theorem handleLeave_relayedOk (st : MeshState) (sid : String) :
    ∀ ev ∈ (handleLeave st sid).2, relayedOk ev := by
  intro ev hev
  simp [handleLeave] at hev
  rcases hev with h | h <;> subst h <;> trivial

theorem fragComplete_relayedOk
    (recurse : MeshState → BitchatPacket → String → MeshState × List MeshEvent)
    (now : Nat) (st2 : MeshState) (fid : String) (total : Nat)
    (fragments1 : List (Nat × List Nat)) (sid : String)
    (hrec : ∀ st' p' sid' ev, ev ∈ (recurse st' p' sid').2 → relayedOk ev) :
    ∀ ev ∈ (fragComplete recurse now st2 fid total fragments1 sid).2, relayedOk ev := by
  intro ev hev
  unfold fragComplete at hev
  split at hev
  · simp at hev
  · split at hev
    · simp only [List.mem_cons] at hev
      rcases hev with h | h | h
      · subst h; trivial
      · subst h; trivial
      · exact hrec _ _ _ _ h
    · simp at hev
      subst hev
      trivial

theorem fragImmediate_relayedOk
    (recurse : MeshState → BitchatPacket → String → MeshState × List MeshEvent)
    (jsonFallback : List Nat → Option BitchatMessage) (st2 : MeshState)
    (fid : String) (fd : List Nat) (sid : String)
    (result : MeshState × List MeshEvent)
    (hrec : ∀ st' p' sid' ev, ev ∈ (recurse st' p' sid').2 → relayedOk ev)
    (h : fragImmediate recurse jsonFallback st2 fid fd sid = some result) :
    ∀ ev ∈ result.2, relayedOk ev := by
  intro ev hev
  unfold fragImmediate at h
  split at h
  · injection h with h
    subst h
    simp at hev
    subst hev
    trivial
  · split at h
    · split at h
      · injection h with h
        subst h
        exact hrec _ _ _ _ hev
      · exact absurd h (by simp)
    · exact absurd h (by simp)

theorem fragSingle_relayedOk
    (recurse : MeshState → BitchatPacket → String → MeshState × List MeshEvent)
    (jsonFallback : List Nat → Option BitchatMessage) (st2 : MeshState)
    (fid : String) (fragments1 : List (Nat × List Nat)) (sid : String)
    (result : MeshState × List MeshEvent)
    (hrec : ∀ st' p' sid' ev, ev ∈ (recurse st' p' sid').2 → relayedOk ev)
    (h : fragSingle recurse jsonFallback st2 fid fragments1 sid = some result) :
    ∀ ev ∈ result.2, relayedOk ev := by
  intro ev hev
  unfold fragSingle at h
  split at h
  · split at h
    · split at h
      · injection h with h
        subst h
        exact hrec _ _ _ _ hev
      · split at h
        · injection h with h
          subst h
          simp at hev
          subst hev
          trivial
        · exact absurd h (by simp)
    · split at h
      · injection h with h
        subst h
        simp at hev
        subst hev
        trivial
      · exact absurd h (by simp)
  · exact absurd h (by simp)

theorem handleFragmentCore_relayedOk
    (recurse : MeshState → BitchatPacket → String → MeshState × List MeshEvent)
    (jsonFallback : List Nat → Option BitchatMessage)
    (now : Nat) (st : MeshState) (p : BitchatPacket) (sid : String)
    (hrec : ∀ st' p' sid' ev, ev ∈ (recurse st' p' sid').2 → relayedOk ev) :
    ∀ ev ∈ (handleFragmentCore recurse jsonFallback now st p sid).2, relayedOk ev := by
  intro ev hev
  unfold handleFragmentCore at hev
  split at hev
  · simp at hev
  · simp only [] at hev
    split at hev
    · simp at hev
    · split at hev
      · exact fragComplete_relayedOk _ _ _ _ _ _ _ hrec _ hev
      · split at hev
        · rename_i result heq
          split at heq
          · exact fragImmediate_relayedOk _ _ _ _ _ _ _ hrec heq _ hev
          · exact absurd heq (by simp)
        · split at hev
          · rename_i result heq
            split at heq
            · exact fragSingle_relayedOk _ _ _ _ _ _ _ hrec heq _ hev
            · exact absurd heq (by simp)
          · simp at hev
            subst hev
            trivial

theorem handleReceivedPacket_relayedOk (jsonFallback : List Nat → Option BitchatMessage)
    (now : Nat) :
    ∀ fuel st p sid ev, ev ∈ (handleReceivedPacket jsonFallback now fuel st p sid).2 →
      relayedOk ev := by
  intro fuel
  induction fuel with
  | zero =>
    intro st p sid ev hev
    simp [handleReceivedPacket] at hev
  | succ n ih =>
    intro st p sid ev hev
    unfold handleReceivedPacket at hev
    split at hev
    · simp at hev
    · simp only [] at hev
      split at hev
      · simp at hev
      · rename_i httl hdup
        split at hev <;>
          [skip;
           (simp only [List.mem_cons] at hev
            rcases hev with h | h
            · subst h; trivial
            · revert h
              split
              · exact fun h => handleAnnounce_relayedOk _ _ _ _ h
              · split
                · exact fun h => handleMessage_relayedOk _ _ _ _ _ h
                · split
                  · exact fun h => handleLeave_relayedOk _ _ _ h
                  · split
                    · exact fun h =>
                        handleFragmentCore_relayedOk _ _ _ _ _ _ (fun a b c => ih a b c) _ h
                    · intro h; simp at h)]
        · rename_i hgt
          simp only [List.mem_append, List.mem_cons, List.mem_singleton] at hev
          rcases hev with (h | h) | h
          · subst h; trivial
          · revert h
            split
            · exact fun h => handleAnnounce_relayedOk _ _ _ _ h
            · split
              · exact fun h => handleMessage_relayedOk _ _ _ _ _ h
              · split
                · exact fun h => handleLeave_relayedOk _ _ _ h
                · split
                  · exact fun h =>
                      handleFragmentCore_relayedOk _ _ _ _ _ _ (fun a b c => ih a b c) _ h
                  · intro h; simp at h
          · rcases h with h | h
            · subst h
              exact ⟨p, hgt, rfl⟩
            · simp at h

/-- C3: a packet with ttl 0 is dropped before any processing; a fresh
packet with ttl 1 is dispatched but never relayed (no relay of its own
clone appears anywhere in the run); and every relay observation of any run
rebroadcasts some received packet of ttl at least 2 with the ttl exactly
one less and every other field unchanged. -/
theorem c3_ttl_policy (jsonFallback : List Nat → Option BitchatMessage)
    (now fuel : Nat) (st : MeshState) (p : BitchatPacket) (sid : String) :
    (p.ttl = 0 → handleReceivedPacket jsonFallback now fuel st p sid = (st, [])) ∧
    (p.ttl = 1 → st.processedMessages.contains (packetKey sid p) = false →
      (handleReceivedPacket jsonFallback now (fuel + 1) st p sid).2.head? =
        some (MeshEvent.dispatched p.type sid) ∧
      ∀ ev ∈ (handleReceivedPacket jsonFallback now (fuel + 1) st p sid).2,
        ev ≠ MeshEvent.relayed (relayClone p)) ∧
    (∀ ev ∈ (handleReceivedPacket jsonFallback now fuel st p sid).2, ∀ q,
      ev = MeshEvent.relayed q →
      ∃ p0 : BitchatPacket, p0.ttl > 1 ∧ q.ttl = p0.ttl - 1 ∧ q.version = p0.version ∧
        q.type = p0.type ∧ q.timestamp = p0.timestamp ∧ q.senderID = p0.senderID ∧
        q.recipientID = p0.recipientID ∧ q.payload = p0.payload ∧
        q.signature = p0.signature) := by
  refine ⟨?_, ?_, ?_⟩
  · intro h0
    cases fuel with
    | zero => rfl
    | succ n =>
      unfold handleReceivedPacket
      rw [if_pos h0]
  · intro h1 hnew
    constructor
    · unfold handleReceivedPacket
      rw [if_neg (by omega : ¬p.ttl = 0)]
      simp only [hnew, Bool.false_eq_true, if_false]
      rw [h1]
      simp
    · intro ev hev hcon
      have hok := handleReceivedPacket_relayedOk jsonFallback now (fuel + 1) st p sid ev hev
      rw [hcon] at hok
      obtain ⟨p0, hp0, heq⟩ := hok
      have hteq : (relayClone p).ttl = (relayClone p0).ttl := by rw [heq]
      simp [relayClone] at hteq
      omega
  · intro ev hev q hq
    have hok := handleReceivedPacket_relayedOk jsonFallback now fuel st p sid ev hev
    rw [hq] at hok
    obtain ⟨p0, hp0, heq⟩ := hok
    subst heq
    exact ⟨p0, hp0, rfl, rfl, rfl, rfl, rfl, rfl, rfl, rfl⟩

/-- DELIVERY_ACK packet, ttl 0, for the drop conjunct. -/
def c3ZeroPacket : BitchatPacket :=
  { version := 1
    type := 10
    ttl := 0
    timestamp := 8
    senderID := [0xEE]
    recipientID := none
    payload := [1, 2, 3]
    signature := none }

/-- The same packet with ttl 1, for the no-relay conjunct. -/
def c3OnePacket : BitchatPacket := { c3ZeroPacket with ttl := 1 }

/-- The same packet with ttl 3, for the relay-decrement conjunct. -/
def c3ThreePacket : BitchatPacket := { c3ZeroPacket with ttl := 3 }

/-- A fresh node state for the C3 runs. -/
def c3TestState : MeshState :=
  { myPeerID := "8899aabbccddeeff"
    nickname := []
    isScanning := true
    connectedDevices := []
    deviceCharacteristics := []
    activePeers := []
    peerNicknames := []
    processedMessages := []
    incomingFragments := []
    fragmentMetadata := [] }

/-- Witness for C3 at concrete packets of ttl 0, 1 and 3. -/
theorem c3_ttl_policy_witness :
    handleReceivedPacket (fun _ => none) 0 5 c3TestState c3ZeroPacket "ee" =
      (c3TestState, []) ∧
    (handleReceivedPacket (fun _ => none) 0 (4 + 1) c3TestState c3OnePacket "ee").2.head? =
      some (MeshEvent.dispatched 10 "ee") ∧
    (∀ ev ∈ (handleReceivedPacket (fun _ => none) 0 (4 + 1) c3TestState c3OnePacket "ee").2,
      ev ≠ MeshEvent.relayed (relayClone c3OnePacket)) ∧
    (∃ p0 : BitchatPacket, p0.ttl > 1 ∧ (relayClone c3ThreePacket).ttl = p0.ttl - 1 ∧
      (relayClone c3ThreePacket).version = p0.version ∧
      (relayClone c3ThreePacket).type = p0.type ∧
      (relayClone c3ThreePacket).timestamp = p0.timestamp ∧
      (relayClone c3ThreePacket).senderID = p0.senderID ∧
      (relayClone c3ThreePacket).recipientID = p0.recipientID ∧
      (relayClone c3ThreePacket).payload = p0.payload ∧
      (relayClone c3ThreePacket).signature = p0.signature) :=
  ⟨(c3_ttl_policy (fun _ => none) 0 5 c3TestState c3ZeroPacket "ee").1 rfl,
   ((c3_ttl_policy (fun _ => none) 0 4 c3TestState c3OnePacket "ee").2.1 rfl (by decide)).1,
   ((c3_ttl_policy (fun _ => none) 0 4 c3TestState c3OnePacket "ee").2.1 rfl (by decide)).2,
   (c3_ttl_policy (fun _ => none) 0 5 c3TestState c3ThreePacket "ee").2.2
     (MeshEvent.relayed (relayClone c3ThreePacket)) (by decide)
     (relayClone c3ThreePacket) rfl⟩

/-! Session-count bookkeeping for the fragment tables. -/

theorem mapGet_mapSet_self {β : Type} (m : List (String × β)) (k : String) (v : β) :
    mapGet (mapSet m k v) k = some v := by
  by_cases hf : (List.find? (fun e => e.1 == k) m).isSome
  · unfold mapSet
    rw [if_pos hf]
    unfold mapGet
    induction m with
    | nil => simp at hf
    | cons hd tl ih =>
      simp only [List.map_cons]
      by_cases hhd : (hd.1 == k) = true
      · rw [if_pos hhd]
        simp [List.find?_cons]
      · rw [if_neg hhd]
        rw [List.find?_cons_of_neg _ (by simpa using hhd)]
        rw [List.find?_cons_of_neg _ (by simpa using hhd)] at hf
        exact ih hf
  · unfold mapSet
    rw [if_neg hf]
    unfold mapGet
    rw [List.find?_append, Option.not_isSome_iff_eq_none.mp hf]
    simp [List.find?]

theorem mapSet_length_present {β : Type} (m : List (String × β)) (k : String) (v : β)
    (h : (mapGet m k).isSome) : (mapSet m k v).length = m.length := by
  unfold mapSet
  rw [if_pos (by simpa [mapGet] using h)]
  exact List.length_map m _

theorem fragInit_le (now : Nat) (st : MeshState) (fid : String) (ot total : Nat)
    (h : st.incomingFragments.length ≤ 50) :
    (fragInit now st fid ot total).1.incomingFragments.length ≤ 50 := by
  unfold fragInit
  simp only []
  split
  · split
    · split
      · exact Nat.le_trans (cleanup_length now st) h
      · rename_i hlt
        simp only []
        exact Nat.le_trans (mapSet_length_le _ _ _) (by omega)
    · rename_i hlt
      simp only []
      exact Nat.le_trans (mapSet_length_le _ _ _) (by omega)
  · exact h

theorem fragInit_has (now : Nat) (st : MeshState) (fid : String) (ot total : Nat)
    (st1 : MeshState) (h : fragInit now st fid ot total = (st1, false)) :
    (mapGet st1.incomingFragments fid).isSome := by
  unfold fragInit at h
  simp only [] at h
  split at h
  · split at h
    · split at h
      · simp at h
      · injection h with h1 h2
        subst h1
        simp [mapGet_mapSet_self]
    · injection h with h1 h2
      subst h1
      simp [mapGet_mapSet_self]
  · rename_i hsome
    injection h with h1 h2
    subst h1
    cases hopt : mapGet st.incomingFragments fid with
    | none => rw [hopt] at hsome; simp at hsome
    | some w => simp

theorem fragComplete_le
    (recurse : MeshState → BitchatPacket → String → MeshState × List MeshEvent)
    (now : Nat) (st2 : MeshState) (fid : String) (total : Nat)
    (fragments1 : List (Nat × List Nat)) (sid : String)
    (hrec : ∀ st' p' sid', st'.incomingFragments.length ≤ 50 →
      (recurse st' p' sid').1.incomingFragments.length ≤ 50)
    (h : st2.incomingFragments.length ≤ 50) :
    (fragComplete recurse now st2 fid total fragments1 sid).1.incomingFragments.length ≤ 50 := by
  unfold fragComplete
  split
  · exact h
  · split
    · simp only []
      refine Nat.le_trans (cleanup_length _ _) (hrec _ _ _ ?_)
      exact Nat.le_trans (mapDelete_length_le _ _) h
    · exact Nat.le_trans (cleanup_length _ _) h

theorem fragImmediate_le
    (recurse : MeshState → BitchatPacket → String → MeshState × List MeshEvent)
    (jsonFallback : List Nat → Option BitchatMessage) (st2 : MeshState)
    (fid : String) (fd : List Nat) (sid : String) (result : MeshState × List MeshEvent)
    (hrec : ∀ st' p' sid', st'.incomingFragments.length ≤ 50 →
      (recurse st' p' sid').1.incomingFragments.length ≤ 50)
    (h : st2.incomingFragments.length ≤ 50)
    (heq : fragImmediate recurse jsonFallback st2 fid fd sid = some result) :
    result.1.incomingFragments.length ≤ 50 := by
  unfold fragImmediate at heq
  split at heq
  · injection heq with heq
    subst heq
    exact Nat.le_trans (mapDelete_length_le _ _) h
  · split at heq
    · split at heq
      · injection heq with heq
        subst heq
        exact Nat.le_trans (mapDelete_length_le _ _) (hrec _ _ _ h)
      · exact absurd heq (by simp)
    · exact absurd heq (by simp)

theorem fragSingle_le
    (recurse : MeshState → BitchatPacket → String → MeshState × List MeshEvent)
    (jsonFallback : List Nat → Option BitchatMessage) (st2 : MeshState)
    (fid : String) (fragments1 : List (Nat × List Nat)) (sid : String)
    (result : MeshState × List MeshEvent)
    (hrec : ∀ st' p' sid', st'.incomingFragments.length ≤ 50 →
      (recurse st' p' sid').1.incomingFragments.length ≤ 50)
    (h : st2.incomingFragments.length ≤ 50)
    (heq : fragSingle recurse jsonFallback st2 fid fragments1 sid = some result) :
    result.1.incomingFragments.length ≤ 50 := by
  unfold fragSingle at heq
  split at heq
  · split at heq
    · split at heq
      · injection heq with heq
        subst heq
        exact Nat.le_trans (mapDelete_length_le _ _) (hrec _ _ _ h)
      · split at heq
        · injection heq with heq
          subst heq
          exact Nat.le_trans (mapDelete_length_le _ _) h
        · exact absurd heq (by simp)
    · split at heq
      · injection heq with heq
        subst heq
        exact Nat.le_trans (mapDelete_length_le _ _) h
      · exact absurd heq (by simp)
  · exact absurd heq (by simp)

theorem handleFragmentCore_le
    (recurse : MeshState → BitchatPacket → String → MeshState × List MeshEvent)
    (jsonFallback : List Nat → Option BitchatMessage)
    (now : Nat) (st : MeshState) (p : BitchatPacket) (sid : String)
    (hrec : ∀ st' p' sid', st'.incomingFragments.length ≤ 50 →
      (recurse st' p' sid').1.incomingFragments.length ≤ 50)
    (h : st.incomingFragments.length ≤ 50) :
    (handleFragmentCore recurse jsonFallback now st p sid).1.incomingFragments.length ≤ 50 := by
  unfold handleFragmentCore
  split
  · exact h
  · simp only []
    split
    · rename_i st1 heq
      have := fragInit_le now st (bytesToHex (p.payload.take 8))
        (jsGetD p.payload 12)
        (jsGetD p.payload 10 <<< 8 ||| jsGetD p.payload 11) h
      rw [heq] at this
      exact this
    · rename_i st1 heq
      have hle : st1.incomingFragments.length ≤ 50 := by
        have := fragInit_le now st (bytesToHex (p.payload.take 8))
          (jsGetD p.payload 12)
          (jsGetD p.payload 10 <<< 8 ||| jsGetD p.payload 11) h
        rw [heq] at this
        exact this
      have hhas := fragInit_has now st (bytesToHex (p.payload.take 8))
        (jsGetD p.payload 12)
        (jsGetD p.payload 10 <<< 8 ||| jsGetD p.payload 11) st1 heq
      have hst2 : (mapSet st1.incomingFragments (bytesToHex (p.payload.take 8))
          (imapSet ((mapGet st1.incomingFragments (bytesToHex (p.payload.take 8))).getD [])
            (jsGetD p.payload 8 <<< 8 ||| jsGetD p.payload 9)
            (p.payload.drop 13))).length ≤ 50 := by
        rw [mapSet_length_present _ _ _ hhas]
        exact hle
      split
      · exact fragComplete_le _ _ _ _ _ _ _ hrec hst2
      · split
        · rename_i result hres
          split at hres
          · exact fragImmediate_le _ _ _ _ _ _ _ hrec hst2 hres
          · exact absurd hres (by simp)
        · split
          · rename_i result hres
            split at hres
            · exact fragSingle_le _ _ _ _ _ _ _ hrec hst2 hres
            · exact absurd hres (by simp)
          · exact Nat.le_trans (cleanup_length _ _) hst2

theorem handleAnnounce_fragments (st : MeshState) (p : BitchatPacket) (sid : String) :
    (handleAnnounce st p sid).1.incomingFragments = st.incomingFragments := by
  unfold handleAnnounce
  simp only []
  split <;> rfl

theorem handleMessage_fragments (jsonFallback : List Nat → Option BitchatMessage)
    (st : MeshState) (p : BitchatPacket) (sid : String) :
    (handleMessage jsonFallback st p sid).1.incomingFragments = st.incomingFragments := by
  unfold handleMessage
  split
  · rfl
  · simp only []
    split <;> rfl

theorem handleReceivedPacket_le (jsonFallback : List Nat → Option BitchatMessage)
    (now : Nat) :
    ∀ fuel st p sid, st.incomingFragments.length ≤ 50 →
      (handleReceivedPacket jsonFallback now fuel st p sid).1.incomingFragments.length ≤ 50 := by
  intro fuel
  induction fuel with
  | zero => intro st p sid h; exact h
  | succ n ih =>
    intro st p sid h
    unfold handleReceivedPacket
    split
    · exact h
    · simp only []
      split
      · exact h
      · split
        · rename_i hgt
          simp only []
          split
          · rw [handleAnnounce_fragments]
            exact h
          · split
            · rw [handleMessage_fragments]
              exact h
            · split
              · exact h
              · split
                · exact handleFragmentCore_le _ _ _ _ _ _ (fun a b c => ih a b c) h
                · exact h
        · simp only []
          split
          · rw [handleAnnounce_fragments]
            exact h
          · split
            · rw [handleMessage_fragments]
              exact h
            · split
              · exact h
              · split
                · exact handleFragmentCore_le _ _ _ _ _ _ (fun a b c => ih a b c) h
                · exact h

/-- C6 (amended): the number of live fragment sessions never exceeds 50 —
the bound is an invariant of packet processing — and when the first
fragment of an unseen id arrives at the cap, expired sessions are swept
first and, if the sweep frees nothing, the NEW session is the one refused
(the old sessions are retained, nothing is evicted oldest-first). -/
theorem c6_session_cap (jsonFallback : List Nat → Option BitchatMessage)
    (now fuel : Nat) (st : MeshState) (p : BitchatPacket) (sid : String)
    (recurse : MeshState → BitchatPacket → String → MeshState × List MeshEvent) :
    (st.incomingFragments.length ≤ 50 →
      (handleReceivedPacket jsonFallback now fuel st p sid).1.incomingFragments.length ≤ 50) ∧
    (¬p.payload.length < 13 →
      mapGet st.incomingFragments (bytesToHex (p.payload.take 8)) = none →
      (cleanupOldFragments now st).incomingFragments.length ≥ 50 →
      handleFragmentCore recurse jsonFallback now st p sid =
        (cleanupOldFragments now st, [])) := by
  constructor
  · exact fun h => handleReceivedPacket_le jsonFallback now fuel st p sid h
  · intro hlen hfresh hcap
    have hcap0 : st.incomingFragments.length ≥ 50 :=
      Nat.le_trans hcap (cleanup_length now st)
    unfold handleFragmentCore
    rw [if_neg hlen]
    simp only []
    have hinit : fragInit now st (bytesToHex (p.payload.take 8))
        (jsGetD p.payload 12)
        (jsGetD p.payload 10 <<< 8 ||| jsGetD p.payload 11) =
        (cleanupOldFragments now st, true) := by
      unfold fragInit
      simp only []
      rw [if_pos (by simp [hfresh])]
      rw [if_pos hcap0]
      rw [if_pos hcap]
    rw [hinit]

/-- FRAGMENT_START packet number i: fresh 8-byte id `[i,1,...,1]`, fragment
index 1 of 2, original type MESSAGE, no data — the session never completes. -/
def c6Packet (i : Nat) : BitchatPacket :=
  { version := 1
    type := 5
    ttl := 1
    timestamp := i
    senderID := [0xAA]
    recipientID := none
    payload := i :: 1 :: 1 :: 1 :: 1 :: 1 :: 1 :: 1 :: 0 :: 1 :: 0 :: 2 :: 4 :: []
    signature := none }

/-- A fresh node state for the C6 runs. -/
def c6TestState : MeshState :=
  { myPeerID := "7766554433221100"
    nickname := []
    isScanning := true
    connectedDevices := []
    deviceCharacteristics := []
    activePeers := []
    peerNicknames := []
    processedMessages := []
    incomingFragments := []
    fragmentMetadata := [] }

/-- The state after feeding 51 fragments with 51 distinct session ids. -/
def c6Feed : MeshState :=
  (List.range 51).foldl
    (fun s i => (handleFragment (fun _ => none) 0 0 s (c6Packet i) "aa").1) c6TestState

/-- Counterexample to C6 as stated: after 51 distinct never-completing
sessions, 50 sessions are live, but the OLDEST (id 0) survives and the
NEWEST (id 50) is the one missing — the eviction claimed by the spec is a
refusal of the newcomer, not an oldest-first eviction. -/
theorem c6_newest_refused_counterexample :
    c6Feed.incomingFragments.length = 50 ∧
    (mapGet c6Feed.incomingFragments (bytesToHex [0, 1, 1, 1, 1, 1, 1, 1])).isSome = true ∧
    (mapGet c6Feed.incomingFragments (bytesToHex [50, 1, 1, 1, 1, 1, 1, 1])).isNone = true := by
  refine ⟨?_, ?_, ?_⟩ <;> decide

/-- Witness for C6 at the saturated 50-session state and a 52nd id. -/
theorem c6_session_cap_witness :
    (handleReceivedPacket (fun _ => none) 0 4 c6Feed (c6Packet 51) "aa").1.incomingFragments.length
      ≤ 50 ∧
    handleFragmentCore (handleReceivedPacket (fun _ => none) 0 3) (fun _ => none) 0
        c6Feed (c6Packet 51) "aa" =
      (cleanupOldFragments 0 c6Feed, []) :=
  ⟨(c6_session_cap (fun _ => none) 0 4 c6Feed (c6Packet 51) "aa"
      (handleReceivedPacket (fun _ => none) 0 3)).1 (by decide),
   (c6_session_cap (fun _ => none) 0 3 c6Feed (c6Packet 51) "aa"
      (handleReceivedPacket (fun _ => none) 0 3)).2 (by decide) (by decide) (by decide)⟩

/-! Reassembly support: sums over a set of fed indices, indexed lookups in
the per-session chunk map, and the reassembly loop on a complete session. -/

theorem sublist_sum_le (l1 l2 : List Nat) (h : List.Sublist l1 l2) : l1.sum ≤ l2.sum := by
  induction h with
  | slnil => exact Nat.le_refl _
  | cons a h ih => simpa using Nat.le_trans ih (Nat.le_add_left _ _)
  | cons₂ a h ih => simpa using ih

theorem subset_map_sum_le (pre : List Nat) (N : Nat) (f : Nat → Nat)
    (hnd : pre.Nodup) (hlt : ∀ j ∈ pre, j < N) :
    (pre.map f).sum ≤ ((List.range N).map f).sum := by
  have hsub : pre ⊆ List.range N := fun a ha => List.mem_range.mpr (hlt a ha)
  obtain ⟨l, hperm, hsl⟩ := hnd.subperm hsub
  calc (pre.map f).sum = (l.map f).sum := ((hperm.map f).sum_eq).symm
    _ ≤ ((List.range N).map f).sum := sublist_sum_le _ _ (hsl.map f)

theorem map_getD_range (l : List (List Nat)) :
    (List.range l.length).map (fun i => l.getD i []) = l := by
  induction l with
  | nil => rfl
  | cons hd tl ih =>
    have h1 : List.range (hd :: tl).length =
        0 :: (List.range tl.length).map (fun x => x + 1) := by
      rw [List.length_cons, List.range_succ_eq_map]
    rw [h1]
    simp only [List.map_cons, List.map_map]
    refine congrArg (hd :: ·) ?_
    have h2 : List.map ((fun i => (hd :: tl).getD i []) ∘ (fun x => x + 1))
        (List.range tl.length) = List.map (fun i => tl.getD i []) (List.range tl.length) :=
      List.map_congr_left (fun a _ => rfl)
    rw [h2, ih]

theorem imapGet_of_mem (g : Nat → List Nat) :
    ∀ (order : List Nat) (j : Nat), j ∈ order →
      imapGet (order.map (fun x => (x, g x))) j = some (g j) := by
  intro order
  induction order with
  | nil => simp
  | cons a tl ih =>
    intro j hj
    by_cases haj : a = j
    · subst haj
      simp [imapGet, List.find?_cons]
    · unfold imapGet
      simp only [List.map_cons]
      rw [List.find?_cons_of_neg _ (by simpa using haj)]
      have hjt : j ∈ tl := by
        rcases List.mem_cons.mp hj with h | h
        · exact absurd h.symm haj
        · exact h
      exact ih j hjt

theorem imapGet_of_not_mem (g : Nat → List Nat) :
    ∀ (order : List Nat) (j : Nat), j ∉ order →
      imapGet (order.map (fun x => (x, g x))) j = none := by
  intro order
  induction order with
  | nil => intro j hj; rfl
  | cons a tl ih =>
    intro j hj
    unfold imapGet
    simp only [List.map_cons]
    rw [List.find?_cons_of_neg _ (by simp; intro h; exact hj (h ▸ List.mem_cons_self a tl))]
    exact ih j (fun h => hj (List.mem_cons_of_mem a h))

theorem reassembleLoop_complete (m : List (Nat × List Nat)) (g : Nat → List Nat) :
    ∀ idxs, (∀ j ∈ idxs, imapGet m j = some (g j)) →
      reassembleLoop m idxs = some (idxs.map g).flatten := by
  intro idxs
  induction idxs with
  | nil => intro h; rfl
  | cons a tl ih =>
    intro h
    unfold reassembleLoop
    rw [h a (List.mem_cons_self a tl)]
    rw [ih (fun j hj => h j (List.mem_cons_of_mem a hj))]
    rfl

/-- cleanupOldFragments leaves the state alone when no session is over the
30 s timeout and the buffered bytes are within the 10 MB budget. -/
theorem cleanup_noop (now : Nat) (st : MeshState)
    (hts : ∀ e ∈ st.fragmentMetadata, ¬((e.2.timestamp : Int) < (now : Int) - 30000))
    (hb : fragmentsTotalBytes st.incomingFragments ≤ 10 * 1024 * 1024) :
    cleanupOldFragments now st = st := by
  unfold cleanupOldFragments
  simp only []
  have h1 : st.fragmentMetadata.filter
      (fun e => decide ((e.2.timestamp : Int) < (now : Int) - 30000)) = [] :=
    List.filter_eq_nil_iff.mpr (fun a ha => by simpa using hts a ha)
  rw [h1]
  simp only [List.map_nil, List.not_mem_nil, List.contains_nil,
    Bool.not_false, List.filter_true]
  rw [if_neg (by omega)]

/-- The 13-byte fragment sub-header followed by the chunk. -/
def fragPayload (id8 : List Nat) (i total ot : Nat) (chunk : List Nat) : List Nat :=
  id8 ++ i / 256 :: i % 256 :: total / 256 :: total % 256 :: ot :: chunk

theorem fragPayload_reads (id8 : List Nat) (i total ot : Nat) (chunk : List Nat)
    (hid : id8.length = 8) (hi : i < 65536) (ht : total < 65536) :
    (fragPayload id8 i total ot chunk).length = 13 + chunk.length ∧
    (fragPayload id8 i total ot chunk).take 8 = id8 ∧
    (jsGetD (fragPayload id8 i total ot chunk) 8 <<< 8 |||
      jsGetD (fragPayload id8 i total ot chunk) 9) = i ∧
    (jsGetD (fragPayload id8 i total ot chunk) 10 <<< 8 |||
      jsGetD (fragPayload id8 i total ot chunk) 11) = total ∧
    jsGetD (fragPayload id8 i total ot chunk) 12 = ot ∧
    (fragPayload id8 i total ot chunk).drop 13 = chunk := by
  have h8 : jsGetD (fragPayload id8 i total ot chunk) 8 = i / 256 := by
    unfold jsGetD fragPayload
    rw [List.getD_append_right id8 _ 0 8 (by omega)]
    simp [hid]
  have h9 : jsGetD (fragPayload id8 i total ot chunk) 9 = i % 256 := by
    unfold jsGetD fragPayload
    rw [List.getD_append_right id8 _ 0 9 (by omega)]
    simp [hid]
  have h10 : jsGetD (fragPayload id8 i total ot chunk) 10 = total / 256 := by
    unfold jsGetD fragPayload
    rw [List.getD_append_right id8 _ 0 10 (by omega)]
    simp [hid]
  have h11 : jsGetD (fragPayload id8 i total ot chunk) 11 = total % 256 := by
    unfold jsGetD fragPayload
    rw [List.getD_append_right id8 _ 0 11 (by omega)]
    simp [hid]
  have h12 : jsGetD (fragPayload id8 i total ot chunk) 12 = ot := by
    unfold jsGetD fragPayload
    rw [List.getD_append_right id8 _ 0 12 (by omega)]
    simp [hid]
  refine ⟨?_, ?_, ?_, ?_, h12, ?_⟩
  · unfold fragPayload
    simp [hid]
    omega
  · exact take_append_exact id8 _ 8 hid
  · rw [h8, h9, nat_shl8_lor _ _ (Nat.mod_lt i (by omega))]
    omega
  · rw [h10, h11, nat_shl8_lor _ _ (Nat.mod_lt total (by omega))]
    omega
  · exact drop_append_plus id8 _ 13 5 (by omega)

/-- The service state holding one fragment session for id `fid` with the
chunks of the fed indices `pre`, in arrival order. -/
def c5SessionState (st0 : MeshState) (fid : String) (ot N now : Nat)
    (chunks : List (List Nat)) (pre : List Nat) : MeshState :=
  { st0 with
      incomingFragments := [(fid, pre.map (fun x => (x, chunks.getD x [])))],
      fragmentMetadata := [(fid, ⟨ot, N, now⟩)] }

theorem imapSet_not_mem (g : Nat → List Nat) (pre : List Nat) (j : Nat) (v : List Nat)
    (h : j ∉ pre) :
    imapSet (pre.map (fun x => (x, g x))) j v = pre.map (fun x => (x, g x)) ++ [(j, v)] := by
  unfold imapSet
  rw [if_neg ?hc]
  case hc =>
    rw [List.find?_eq_none.mpr]
    · simp
    · intro e he
      obtain ⟨x, hx, hex⟩ := List.mem_map.mp he
      subst hex
      intro hxj
      exact h ((eq_of_beq hxj) ▸ hx)

theorem fragmentsTotalBytes_single (fid : String) (m : List (Nat × List Nat)) :
    fragmentsTotalBytes [(fid, m)] = (m.map (fun f => f.2.length)).sum := by
  simp [fragmentsTotalBytes]

/-- Evaluating one fragment arrival on a live session holding `pre`:
either the session completes (all N present) or the chunk is buffered and
the timeout is scheduled.  The workarounds are skipped because N ≥ 3. -/
theorem c5_core_eval
    (recurse : MeshState → BitchatPacket → String → MeshState × List MeshEvent)
    (jsonFallback : List Nat → Option BitchatMessage)
    (now : Nat) (st0 : MeshState) (id8 : List Nat) (ot N : Nat)
    (chunks : List (List Nat)) (pre : List Nat) (j : Nat) (p : BitchatPacket)
    (sid : String)
    (hpay : p.payload = fragPayload id8 j N ot (chunks.getD j []))
    (hid : id8.length = 8) (hN3 : 3 ≤ N) (hN16 : N < 65536) (hj : j < N)
    (hnot : j ∉ pre) :
    handleFragmentCore recurse jsonFallback now
        (c5SessionState st0 (bytesToHex id8) ot N now chunks pre) p sid =
      if (pre ++ [j]).length = N then
        fragComplete recurse now
          (c5SessionState st0 (bytesToHex id8) ot N now chunks (pre ++ [j]))
          (bytesToHex id8) N ((pre ++ [j]).map (fun x => (x, chunks.getD x []))) sid
      else
        (cleanupOldFragments now
           (c5SessionState st0 (bytesToHex id8) ot N now chunks (pre ++ [j])),
         [MeshEvent.timeoutScheduled (bytesToHex id8)]) := by
  obtain ⟨hl, htake, hidx, htot, hot, hdrop⟩ :=
    fragPayload_reads id8 j N ot (chunks.getD j []) hid (by omega) hN16
  unfold handleFragmentCore
  rw [hpay]
  rw [if_neg (by rw [hl]; omega)]
  simp only []
  rw [htake, hidx, htot, hot, hdrop]
  have hinit : fragInit now (c5SessionState st0 (bytesToHex id8) ot N now chunks pre)
      (bytesToHex id8) ot N =
      (c5SessionState st0 (bytesToHex id8) ot N now chunks pre, false) := by
    unfold fragInit
    simp only []
    rw [if_neg (by rw [show (c5SessionState st0 (bytesToHex id8) ot N now chunks
      pre).incomingFragments = [((bytesToHex id8), pre.map (fun x => (x, chunks.getD x [])))]
      from rfl, mapGet_single]; simp)]
  rw [hinit]
  simp only []
  rw [show (c5SessionState st0 (bytesToHex id8) ot N now chunks pre).incomingFragments =
    [((bytesToHex id8), pre.map (fun x => (x, chunks.getD x [])))] from rfl]
  rw [mapGet_single]
  simp only [Option.getD_some]
  rw [imapSet_not_mem _ pre j _ hnot]
  rw [mapSet_single]
  rw [show pre.map (fun x => (x, chunks.getD x [])) ++ [(j, chunks.getD j [])] =
    (pre ++ [j]).map (fun x => (x, chunks.getD x [])) from by rw [List.map_append]; rfl]
  rw [if_neg (fun h => by have := h.2; omega : ¬(j = 0 ∧ N = 2))]
  simp only [List.length_map]
  rw [if_neg (fun h => by have := h.2.1; omega :
    ¬((pre ++ [j]).length = 1 ∧ N = 2 ∧ j = 0))]
  rfl

theorem range_map_getD_length_sum (chunks : List (List Nat)) :
    ((List.range chunks.length).map (fun i => (chunks.getD i []).length)).sum =
      chunks.flatten.length := by
  have h1 : ((List.range chunks.length).map (fun i => chunks.getD i [])).map List.length =
      (List.range chunks.length).map (fun i => (chunks.getD i []).length) := by
    rw [List.map_map]
    rfl
  rw [← h1, map_getD_range, List.length_flatten]

theorem c5SessionState_cleanup (st0 : MeshState) (fid : String) (ot N now : Nat)
    (chunks : List (List Nat)) (order : List Nat)
    (hb : (order.map (fun x => (chunks.getD x []).length)).sum ≤ 10 * 1024 * 1024) :
    cleanupOldFragments now (c5SessionState st0 fid ot N now chunks order) =
      c5SessionState st0 fid ot N now chunks order := by
  apply cleanup_noop
  · intro e he
    rw [show (c5SessionState st0 fid ot N now chunks order).fragmentMetadata =
      [(fid, ⟨ot, N, now⟩)] from rfl, List.mem_singleton] at he
    subst he
    simp only []
    omega
  · rw [show (c5SessionState st0 fid ot N now chunks order).incomingFragments =
      [(fid, order.map (fun x => (x, chunks.getD x [])))] from rfl]
    rw [fragmentsTotalBytes_single, List.map_map]
    exact hb

/-- First fragment from a clean state: fragInit creates the session, so the
arrival behaves exactly like an arrival on the freshly created session. -/
theorem c5_step0
    (recurse : MeshState → BitchatPacket → String → MeshState × List MeshEvent)
    (jsonFallback : List Nat → Option BitchatMessage)
    (now : Nat) (st0 : MeshState) (id8 : List Nat) (ot N : Nat)
    (chunks : List (List Nat)) (j : Nat) (p : BitchatPacket) (sid : String)
    (hst1 : st0.incomingFragments = []) (hst2 : st0.fragmentMetadata = [])
    (hpay : p.payload = fragPayload id8 j N ot (chunks.getD j []))
    (hid : id8.length = 8) (hN3 : 3 ≤ N) (hN16 : N < 65536) (hj : j < N)
    (hb : (chunks.getD j []).length ≤ 10 * 1024 * 1024) :
    handleFragmentCore recurse jsonFallback now st0 p sid =
      (c5SessionState st0 (bytesToHex id8) ot N now chunks [j],
       [MeshEvent.timeoutScheduled (bytesToHex id8)]) := by
  have heq : handleFragmentCore recurse jsonFallback now st0 p sid =
      handleFragmentCore recurse jsonFallback now
        (c5SessionState st0 (bytesToHex id8) ot N now chunks []) p sid := by
    obtain ⟨hl, htake, hidx, htot, hot, hdrop⟩ :=
      fragPayload_reads id8 j N ot (chunks.getD j []) hid (by omega) hN16
    unfold handleFragmentCore
    rw [hpay]
    rw [if_neg (by rw [hl]; omega), if_neg (by rw [hl]; omega)]
    simp only []
    rw [htake]
    have hinit0 : fragInit now st0 (bytesToHex id8) ot N =
        (c5SessionState st0 (bytesToHex id8) ot N now chunks [], false) := by
      unfold fragInit
      simp only []
      rw [if_pos (by rw [hst1]; simp [mapGet_nil])]
      rw [if_neg (by rw [hst1]; simp)]
      unfold c5SessionState
      rw [hst1, hst2, mapSet_nil, mapSet_nil]
      rfl
    have hinit1 : fragInit now (c5SessionState st0 (bytesToHex id8) ot N now chunks [])
        (bytesToHex id8) ot N =
        (c5SessionState st0 (bytesToHex id8) ot N now chunks [], false) := by
      unfold fragInit
      simp only []
      rw [if_neg (by
        rw [show (c5SessionState st0 (bytesToHex id8) ot N now chunks
          []).incomingFragments = [((bytesToHex id8), [])] from rfl, mapGet_single]
        simp)]
    rw [hot, htot]
    rw [hinit0, hinit1]
  rw [heq]
  rw [c5_core_eval recurse jsonFallback now st0 id8 ot N chunks [] j p sid hpay hid hN3
    hN16 hj (by simp)]
  rw [if_neg (by simp; omega)]
  rw [c5SessionState_cleanup st0 (bytesToHex id8) ot N now chunks ([] ++ [j])
    (by simpa using hb)]
  rfl
/-- Arrival of a further fragment on a live session, still incomplete:
the chunk is appended and the timeout scheduled. -/
theorem c5_step
    (recurse : MeshState → BitchatPacket → String → MeshState × List MeshEvent)
    (jsonFallback : List Nat → Option BitchatMessage)
    (now : Nat) (st0 : MeshState) (id8 : List Nat) (ot N : Nat)
    (chunks : List (List Nat)) (pre : List Nat) (j : Nat) (p : BitchatPacket)
    (sid : String)
    (hpay : p.payload = fragPayload id8 j N ot (chunks.getD j []))
    (hid : id8.length = 8) (hN3 : 3 ≤ N) (hN16 : N < 65536) (hj : j < N)
    (hnot : j ∉ pre) (hne : (pre ++ [j]).length ≠ N)
    (hb : ((pre ++ [j]).map (fun x => (chunks.getD x []).length)).sum ≤ 10 * 1024 * 1024) :
    handleFragmentCore recurse jsonFallback now
        (c5SessionState st0 (bytesToHex id8) ot N now chunks pre) p sid =
      (c5SessionState st0 (bytesToHex id8) ot N now chunks (pre ++ [j]),
       [MeshEvent.timeoutScheduled (bytesToHex id8)]) := by
  rw [c5_core_eval recurse jsonFallback now st0 id8 ot N chunks pre j p sid hpay hid hN3
    hN16 hj hnot]
  rw [if_neg hne]
  rw [c5SessionState_cleanup st0 (bytesToHex id8) ot N now chunks (pre ++ [j]) hb]

/-- Feeding any incomplete, duplicate-free set of fragments from a clean
state builds exactly the session of the fed chunks, in arrival order. -/
theorem c5_feed (jsonFallback : List Nat → Option BitchatMessage)
    (now fuel : Nat) (st0 : MeshState) (id8 : List Nat) (ot N : Nat)
    (chunks : List (List Nat)) (pkt : Nat → BitchatPacket) (sid : String)
    (hst1 : st0.incomingFragments = []) (hst2 : st0.fragmentMetadata = [])
    (hid : id8.length = 8) (hN3 : 3 ≤ N) (hN16 : N < 65536)
    (hlen : chunks.length = N)
    (hbytes : chunks.flatten.length ≤ 10 * 1024 * 1024)
    (hpk : ∀ x, (pkt x).payload = fragPayload id8 x N ot (chunks.getD x [])) :
    ∀ pre, pre.Nodup → (∀ x ∈ pre, x < N) → pre.length < N → pre ≠ [] →
      pre.foldl (fun s x => (handleFragment jsonFallback now fuel s (pkt x) sid).1) st0 =
        c5SessionState st0 (bytesToHex id8) ot N now chunks pre := by
  intro pre
  induction pre using List.reverseRecOn with
  | nil => intro _ _ _ hne; exact absurd rfl hne
  | append_singleton xs x ih =>
    intro hnd hx hlt _
    have hbx : ((xs ++ [x]).map (fun y => (chunks.getD y []).length)).sum ≤
        10 * 1024 * 1024 := by
      refine Nat.le_trans (subset_map_sum_le (xs ++ [x]) N _ hnd hx) ?_
      rw [← hlen] at *
      rw [range_map_getD_length_sum]
      exact hbytes
    have hxN : x < N := hx x (List.mem_append_right xs (List.mem_singleton.mpr rfl))
    have hxnot : x ∉ xs := by
      have := List.nodup_append.mp hnd
      intro hmem
      exact this.2.2 hmem (List.mem_singleton.mpr rfl)
    rw [List.foldl_append]
    simp only [List.foldl_cons, List.foldl_nil]
    rcases eq_or_ne xs [] with hxs | hxs
    · subst hxs
      simp only [List.foldl_nil]
      rw [show handleFragment jsonFallback now fuel st0 (pkt x) sid =
        handleFragmentCore (handleReceivedPacket jsonFallback now fuel) jsonFallback now
          st0 (pkt x) sid from rfl]
      rw [c5_step0 (handleReceivedPacket jsonFallback now fuel) jsonFallback now st0 id8
        ot N chunks x (pkt x) sid hst1 hst2 (hpk x) hid hN3 hN16 hxN
        (by simpa using hbx)]
      rfl
    · rw [ih (List.Nodup.of_append_left hnd)
        (fun y hy => hx y (List.mem_append_left _ hy))
        (by rw [List.length_append] at hlt; simp at hlt; omega) hxs]
      rw [show ∀ s, handleFragment jsonFallback now fuel s (pkt x) sid =
        handleFragmentCore (handleReceivedPacket jsonFallback now fuel) jsonFallback now
          s (pkt x) sid from fun s => rfl]
      rw [c5_step (handleReceivedPacket jsonFallback now fuel) jsonFallback now st0 id8
        ot N chunks xs x (pkt x) sid (hpk x) hid hN3 hN16 hxN hxnot
        (by rw [List.length_append] at hlt ⊢; simp at hlt ⊢; omega) hbx]

/-- Completing the session: the reassembled buffer is the chunk
concatenation in index order; on a successful decode the session is
destroyed (the state handed to the re-dispatch is the clean st0) and the
packet re-processed. -/
theorem c5_complete_eval
    (recurse : MeshState → BitchatPacket → String → MeshState × List MeshEvent)
    (now : Nat) (st0 : MeshState) (fid : String) (ot N : Nat)
    (chunks : List (List Nat)) (order : List Nat) (sid : String)
    (hst1 : st0.incomingFragments = []) (hst2 : st0.fragmentMetadata = [])
    (hlen : chunks.length = N)
    (hperm : order.Perm (List.range N)) :
    fragComplete recurse now (c5SessionState st0 fid ot N now chunks order) fid N
        (order.map (fun x => (x, chunks.getD x []))) sid =
      match BinaryProtocol.decode chunks.flatten with
      | some q =>
        (cleanupOldFragments now (recurse st0 q sid).1,
         MeshEvent.reassembled fid chunks.flatten ::
           MeshEvent.redispatched q :: (recurse st0 q sid).2)
      | none =>
        (cleanupOldFragments now (c5SessionState st0 fid ot N now chunks order),
         [MeshEvent.reassembled fid chunks.flatten]) := by
  unfold fragComplete
  have hre : reassembleLoop (order.map (fun x => (x, chunks.getD x []))) (List.range N) =
      some chunks.flatten := by
    rw [reassembleLoop_complete _ (fun x => chunks.getD x []) _ (fun x hx =>
      imapGet_of_mem _ order x (hperm.mem_iff.mpr hx))]
    rw [← hlen, map_getD_range]
  rw [hre]
  simp only []
  have hst0 : ({ st0 with
      incomingFragments := ([] : List (String × List (Nat × List Nat))),
      fragmentMetadata := ([] : List (String × FragmentMeta)) }) = st0 := by
    rw [← hst1, ← hst2]
  cases hdec : BinaryProtocol.decode chunks.flatten with
  | none => rfl
  | some q =>
    simp only []
    rw [show mapDelete (c5SessionState st0 fid ot N now chunks order).incomingFragments fid
      = [] from by rw [show (c5SessionState st0 fid ot N now chunks order).incomingFragments
        = [(fid, order.map (fun x => (x, chunks.getD x [])))] from rfl]; exact
        mapDelete_single _ _]
    rw [show mapDelete (c5SessionState st0 fid ot N now chunks order).fragmentMetadata fid
      = [] from by rw [show (c5SessionState st0 fid ot N now chunks order).fragmentMetadata
        = [(fid, ⟨ot, N, now⟩)] from rfl]; exact mapDelete_single _ _]
    rw [show ({ c5SessionState st0 fid ot N now chunks order with
      incomingFragments := ([] : List (String × List (Nat × List Nat))),
      fragmentMetadata := ([] : List (String × FragmentMeta)) }) = st0 from hst0]

/-- C5 (amended): for every payload split into N ≥ 3 chunks carried by
fragments with the 13-byte sub-header (same 8-byte id, index x, total N),
fed in ANY order from a clean state, the final fragment completes the
session: the reassembled buffer is byte-identical to the original payload
(the chunk concatenation in index order), it is handed to the packet
decoder and, on success, the session is destroyed before the packet is
re-dispatched into handleReceivedPacket.  For N = 2 this fails — see the
order-dependent counterexample. -/
theorem c5_fragment_reassembly (jsonFallback : List Nat → Option BitchatMessage)
    (now fuel : Nat) (st0 : MeshState) (id8 : List Nat) (ot N : Nat)
    (chunks : List (List Nat)) (pkt : Nat → BitchatPacket) (sid : String)
    (pre : List Nat) (i : Nat)
    (hst1 : st0.incomingFragments = []) (hst2 : st0.fragmentMetadata = [])
    (hid : id8.length = 8) (hN3 : 3 ≤ N) (hN16 : N < 65536)
    (hlen : chunks.length = N)
    (hbytes : chunks.flatten.length ≤ 10 * 1024 * 1024)
    (hpk : ∀ x, (pkt x).payload = fragPayload id8 x N ot (chunks.getD x []))
    (hperm : (pre ++ [i]).Perm (List.range N)) :
    handleFragment jsonFallback now fuel
        (pre.foldl (fun s x => (handleFragment jsonFallback now fuel s (pkt x) sid).1) st0)
        (pkt i) sid =
      match BinaryProtocol.decode chunks.flatten with
      | some q =>
        (cleanupOldFragments now (handleReceivedPacket jsonFallback now fuel st0 q sid).1,
         MeshEvent.reassembled (bytesToHex id8) chunks.flatten ::
           MeshEvent.redispatched q ::
           (handleReceivedPacket jsonFallback now fuel st0 q sid).2)
      | none =>
        (cleanupOldFragments now
           (c5SessionState st0 (bytesToHex id8) ot N now chunks (pre ++ [i])),
         [MeshEvent.reassembled (bytesToHex id8) chunks.flatten]) := by
  have hnd : (pre ++ [i]).Nodup := hperm.nodup_iff.mpr (List.nodup_range _)
  have hmem : ∀ x ∈ pre ++ [i], x < N := fun x hx =>
    List.mem_range.mp (hperm.mem_iff.mp hx)
  have hlen2 : (pre ++ [i]).length = N := by
    rw [hperm.length_eq, List.length_range]
  have hprelen : pre.length + 1 = N := by simpa using hlen2
  have hprene : pre ≠ [] := by
    intro h
    subst h
    simp at hprelen
    omega
  rw [c5_feed jsonFallback now fuel st0 id8 ot N chunks pkt sid hst1 hst2 hid hN3 hN16
    hlen hbytes hpk pre (List.Nodup.of_append_left hnd)
    (fun x hx => hmem x (List.mem_append_left _ hx)) (by omega) hprene]
  rw [show handleFragment jsonFallback now fuel
      (c5SessionState st0 (bytesToHex id8) ot N now chunks pre) (pkt i) sid =
    handleFragmentCore (handleReceivedPacket jsonFallback now fuel) jsonFallback now
      (c5SessionState st0 (bytesToHex id8) ot N now chunks pre) (pkt i) sid from rfl]
  rw [c5_core_eval (handleReceivedPacket jsonFallback now fuel) jsonFallback now st0 id8
    ot N chunks pre i (pkt i) sid (hpk i) hid hN3 hN16
    (hmem i (List.mem_append_right _ (List.mem_singleton.mpr rfl)))
    (fun hmem2 => (List.nodup_append.mp hnd).2.2 hmem2 (List.mem_singleton.mpr rfl))]
  rw [if_pos hlen2]
  exact c5_complete_eval (handleReceivedPacket jsonFallback now fuel) now st0
    (bytesToHex id8) ot N chunks (pre ++ [i]) sid hst1 hst2 hlen hperm

/-- 8-byte fragment id for the C5 witness. -/
def c5Id8 : List Nat := [16, 32, 48, 64, 80, 96, 112, 128]

/-- A 22-byte packet buffer split into 3 chunks: the reassembled flatten
decodes to a ttl-0 MESSAGE packet. -/
def c5Chunks : List (List Nat) :=
  [[1, 4, 0, 0, 0, 0, 0, 0], [0, 0, 42, 0, 0, 0, 9], [9, 9, 9, 9, 9, 9, 9]]

/-- The packet that c5Chunks.flatten decodes to. -/
def c5Q : BitchatPacket :=
  { version := 1
    type := 4
    ttl := 0
    timestamp := 42
    senderID := [9, 9, 9, 9, 9, 9, 9, 9]
    recipientID := none
    payload := []
    signature := none }

/-- Fragment packet number x of the C5 witness split. -/
def c5Pkt (x : Nat) : BitchatPacket :=
  { version := 1
    type := 5
    ttl := 1
    timestamp := x
    senderID := [0xF7]
    recipientID := none
    payload := fragPayload c5Id8 x 3 4 (c5Chunks.getD x [])
    signature := none }

/-- A fresh node state for the C5 witness run. -/
def c5TestState : MeshState :=
  { myPeerID := "00ff00ff00ff00ff"
    nickname := []
    isScanning := true
    connectedDevices := []
    deviceCharacteristics := []
    activePeers := []
    peerNicknames := []
    processedMessages := []
    incomingFragments := []
    fragmentMetadata := [] }

/-- Witness for C5: the 3-fragment split fed in order 2, 0, 1 reassembles
to the original buffer and re-dispatches the decoded packet. -/
theorem c5_fragment_reassembly_witness :
    handleFragment (fun _ => none) 0 1
        ([2, 0].foldl (fun s x => (handleFragment (fun _ => none) 0 1 s (c5Pkt x) "f7").1)
          c5TestState)
        (c5Pkt 1) "f7" =
      (cleanupOldFragments 0
         (handleReceivedPacket (fun _ => none) 0 1 c5TestState c5Q "f7").1,
       MeshEvent.reassembled (bytesToHex c5Id8) c5Chunks.flatten ::
         MeshEvent.redispatched c5Q ::
         (handleReceivedPacket (fun _ => none) 0 1 c5TestState c5Q "f7").2) :=
  (c5_fragment_reassembly (fun _ => none) 0 1 c5TestState c5Id8 4 3 c5Chunks c5Pkt "f7"
    [2, 0] 1 rfl rfl (by decide) (by decide) (by decide) (by decide) (by decide)
    (fun x => rfl) (by decide)).trans (by decide)

/-- 8-byte fragment id for the C5 counterexample. -/
def c5BadId8 : List Nat := [17, 34, 51, 68, 85, 102, 119, 136]

/-- First chunk of a 2-fragment split that happens to decode as a complete
ttl-0 MESSAGE packet on its own, triggering the immediate workaround. -/
def c5BadChunk0 : List Nat :=
  [1, 4, 0, 0, 0, 0, 0, 0, 0, 0, 7, 0, 0, 0, 5, 5, 5, 5, 5, 5, 5, 5]

/-- Second chunk of the split. -/
def c5BadChunk1 : List Nat := [8, 8, 8]

/-- Fragment packet number x of the 2-fragment counterexample split. -/
def c5BadPkt (x : Nat) : BitchatPacket :=
  { version := 1
    type := 5
    ttl := 1
    timestamp := x
    senderID := [0xB2]
    recipientID := none
    payload := fragPayload c5BadId8 x 2 4 ([c5BadChunk0, c5BadChunk1].getD x [])
    signature := none }

/-- A fresh node state for the C5 counterexample run. -/
def c5CexState : MeshState :=
  { myPeerID := "5544332211009988"
    nickname := []
    isScanning := true
    connectedDevices := []
    deviceCharacteristics := []
    activePeers := []
    peerNicknames := []
    processedMessages := []
    incomingFragments := []
    fragmentMetadata := [] }

/-- Counterexample to C5 as stated: with N = 2, feeding fragment 0 first
fires the immediate-processing workaround — the session is destroyed on the
spot — so feeding the remaining fragment opens a fresh one-chunk session
and the split is never reassembled.  Order matters and the reassembled
buffer is never produced, refuting the any-order round-trip for N = 2. -/
theorem c5_order_dependent_counterexample :
    handleFragment (fun _ => none) 0 1 c5CexState (c5BadPkt 0) "b2" = (c5CexState, []) ∧
    handleFragment (fun _ => none) 0 1
        (handleFragment (fun _ => none) 0 1 c5CexState (c5BadPkt 0) "b2").1
        (c5BadPkt 1) "b2" =
      ({ c5CexState with
          incomingFragments := [("1122334455667788", [(1, c5BadChunk1)])],
          fragmentMetadata := [("1122334455667788", ⟨4, 2, 0⟩)] },
       [MeshEvent.timeoutScheduled "1122334455667788"]) := by
  refine ⟨?_, ?_⟩ <;> decide
